import Mathlib

/-!
A shallow embedding of the draft-session server in `src/index.ts`.

Socket ids (session identities) are modelled as `Nat`, team ids (UUIDs) as
`Nat`, and the opaque `pokemon` payloads by their `id` string.  The two
JavaScript `Map`s (`playerSides`, `playerMMRs`) and the global
`draftStates` map are modelled as association lists with `Map.get` /
`Map.set` / `Map.delete` semantics (first matching key; `set` replaces in
place).  Every socket event handler becomes a function from the server
state to a new server state plus the list of emitted messages; a run of
the server is a fold of these handlers over a list of events.
-/

namespace XpZone

set_option maxRecDepth 16000

/-- Association-list lookup, mirroring JavaScript `Map.get` (first matching key). -/
def lookupA {α : Type} : List (Nat × α) → Nat → Option α
  | [], _ => none
  | (k, v) :: rest, key => if k = key then some v else lookupA rest key

/-- Association-list update, mirroring `Map.set`: replaces the first entry
with the given key in place, otherwise appends a new entry at the end. -/
def setA {α : Type} : List (Nat × α) → Nat → α → List (Nat × α)
  | [], k, v => [(k, v)]
  | (k0, v0) :: rest, k, v =>
    if k0 = k then (k, v) :: rest else (k0, v0) :: setA rest k v

/-- Association-list removal, mirroring `Map.delete` (first matching entry). -/
def eraseA {α : Type} : List (Nat × α) → Nat → List (Nat × α)
  | [], _ => []
  | (k0, v0) :: rest, k => if k0 = k then rest else (k0, v0) :: eraseA rest k

/-- A side of the draft (`"blue" | "red"` in the source). -/
inductive Side where
  | blue : Side
  | red : Side
deriving DecidableEq

/-- `currentTurn === "blue" ? "red" : "blue"` -/
def flipSide : Side → Side
  | Side.blue => Side.red
  | Side.red => Side.blue

/-- The `turnPhase` field (`"waiting" | "ban" | "pick" | "complete"`). -/
inductive Phase where
  | waiting : Phase
  | ban : Phase
  | pick : Phase
  | complete : Phase
deriving DecidableEq

/-- The value stored in `playerMMRs`: `{ name, mmr }`. -/
structure PlayerData where
  name : String
  mmr : Nat
deriving DecidableEq

/-- An entry of `DraftState.picks` (the opaque `pokemon` object is kept as its id). -/
structure PickEntry where
  pokemonId : String
  team : Side
  pickerId : Nat
deriving DecidableEq

/-- An entry of `DraftState.bans`. -/
structure BanEntry where
  pokemonId : String
  bannerId : Nat
  banningTeam : Side
deriving DecidableEq

/-- The per-team `DraftState` record of `src/index.ts` (lines 22-46). -/
structure DraftState where
  picks : List PickEntry
  bans : List BanEntry
  currentTurn : Side
  turnPhase : Phase
  turnNumber : Nat
  playerSides : List (Nat × Side)
  bluePlayers : List Nat
  redPlayers : List Nat
  playersBanned : List Nat
  playersPicked : List Nat
  playerMMRs : List (Nat × PlayerData)
  blueLeader : Option Nat
  redLeader : Option Nat
  blueBanCount : Nat
  redBanCount : Nat
  minPlayersPerTeam : Nat
  currentPickerIndex : Nat × Nat
  pickOrder : List Nat
  roomCode : Option String
deriving DecidableEq

/-- A team record as built by the `create-team` handler.  `createdAt`
(`Date.now()`) is irrelevant to the logic and fixed to `0`. -/
structure Team where
  id : Nat
  name : String
  mode : String
  leaderSocketId : Nat
  createdAt : Nat
  members : List Nat
deriving DecidableEq

/-- The whole mutable server state: the `teams` array and the `draftStates` map. -/
structure ServerState where
  teams : List Team
  draftStates : List (Nat × DraftState)
deriving DecidableEq

/-- The audience of an emitted socket message: `socket.emit` (the calling
socket only), `io.to(teamId)`, `io.to("lobby")`, or `socket.to("lobby")`
(the lobby minus the caller). -/
inductive Target where
  | toCaller : Nat → Target
  | toTeam : Nat → Target
  | toLobby : Target
  | toLobbyOthers : Nat → Target
deriving DecidableEq

/-- An emitted message: audience, event name, and (for failure replies and
the room code) a string payload; structured payloads are abstracted to `""`. -/
structure Msg where
  target : Target
  event : String
  payload : String
deriving DecidableEq

/-- `team.mode === "5v5" ? 5 : team.mode === "10v10" ? 10 : 5` (per-side quorum
and per-side capacity). -/
def minPlayersFor (mode : String) : Nat :=
  if mode = "5v5" then 5 else if mode = "10v10" then 10 else 5

/-- `team.mode === "5v5" ? 10 : team.mode === "10v10" ? 20 : 10` (total team capacity). -/
def totalCapacity (mode : String) : Nat :=
  if mode = "5v5" then 10 else if mode = "10v10" then 20 else 10

/-- The fresh `DraftState` installed by the `create-team` handler. -/
def initDraft (mode : String) : DraftState where
  picks := []
  bans := []
  currentTurn := Side.blue
  turnPhase := Phase.waiting
  turnNumber := 1
  playerSides := []
  bluePlayers := []
  redPlayers := []
  playersBanned := []
  playersPicked := []
  playerMMRs := []
  blueLeader := none
  redLeader := none
  blueBanCount := 0
  redBanCount := 0
  minPlayersPerTeam := minPlayersFor mode
  currentPickerIndex := (0, 0)
  pickOrder := []
  roomCode := none

/-- One iteration of the highest-MMR scan used by `updateLeaders` and by the
disconnect handler: the accumulator is `(highestMMR, leaderId)`, starting at
`(-1, null)`; a player strictly above the running maximum takes the lead,
players without a score entry are skipped. -/
def leaderStep (mmrs : List (Nat × PlayerData)) (acc : Int × Option Nat) (pid : Nat) :
    Int × Option Nat :=
  match lookupA mmrs pid, acc with
  | some d, (best, leader) =>
    if (d.mmr : Int) > best then ((d.mmr : Int), some pid) else (best, leader)
  | none, acc1 => acc1

/-- The leader-election loop of the source (`updateLeaders`, and the
re-election blocks of the disconnect handler): highest MMR wins, ties go to
the earliest element of the side list. -/
def findLeader (mmrs : List (Nat × PlayerData)) (players : List Nat) : Option Nat :=
  (players.foldl (leaderStep mmrs) (-1, none)).2

/-- `updateLeaders` from the `select-side` handler: each side's leader is
recomputed only when that side's player list is non-empty. -/
def updateLeaders (ds : DraftState) : DraftState :=
  let ds1 :=
    if 0 < ds.bluePlayers.length then
      { ds with blueLeader := findLeader ds.playerMMRs ds.bluePlayers }
    else ds
  if 0 < ds1.redPlayers.length then
    { ds1 with redLeader := findLeader ds1.playerMMRs ds1.redPlayers }
  else ds1

/-- The `select-side` handler, acting on one `DraftState` (the capacity bound
`maxPerSide` is derived from the team's mode by the caller).  The source's
`mmr || random` / `playerName || default` fallbacks are modelled by taking the
already-resolved name and score as the event's input. -/
def selectSideApply (tid maxPerSide : Nat) (ds : DraftState) (sid : Nat) (side : Side)
    (nm : String) (mmr : Nat) : DraftState × List Msg :=
  if side = Side.blue ∧ maxPerSide ≤ ds.bluePlayers.length then
    (ds, [⟨Target.toCaller sid, "side-select-failed", "Blue team is full"⟩])
  else if side = Side.red ∧ maxPerSide ≤ ds.redPlayers.length then
    (ds, [⟨Target.toCaller sid, "side-select-failed", "Red team is full"⟩])
  else
    let blue1 := ds.bluePlayers.filter (fun i => i != sid)
    let red1 := ds.redPlayers.filter (fun i => i != sid)
    let blue2 := if side = Side.blue then blue1 ++ [sid] else blue1
    let red2 := if side = Side.red then red1 ++ [sid] else red1
    let ds1 := { ds with
      bluePlayers := blue2
      redPlayers := red2
      playerSides := setA ds.playerSides sid side
      playerMMRs := setA ds.playerMMRs sid ⟨nm, mmr⟩ }
    let ds2 := updateLeaders ds1
    if (ds2.minPlayersPerTeam ≤ ds2.bluePlayers.length ∧
        ds2.minPlayersPerTeam ≤ ds2.redPlayers.length) ∧
        ds2.turnPhase = Phase.waiting then
      ({ ds2 with turnPhase := Phase.ban, currentTurn := Side.blue },
       [⟨Target.toTeam tid, "phase-changed", ""⟩,
        ⟨Target.toTeam tid, "player-side-selected", ""⟩,
        ⟨Target.toCaller sid, "side-select-success", ""⟩])
    else
      (ds2,
       [⟨Target.toTeam tid, "player-side-selected", ""⟩,
        ⟨Target.toCaller sid, "side-select-success", ""⟩])

/-- `blueBanCount` / `redBanCount` selected by side. -/
def sideBanCount (ds : DraftState) : Side → Nat
  | Side.blue => ds.blueBanCount
  | Side.red => ds.redBanCount

/-- `blueLeader` / `redLeader` selected by side. -/
def sideLeader (ds : DraftState) : Side → Option Nat
  | Side.blue => ds.blueLeader
  | Side.red => ds.redLeader

/-- `bluePlayers` / `redPlayers` selected by side. -/
def sideList (ds : DraftState) : Side → List Nat
  | Side.blue => ds.bluePlayers
  | Side.red => ds.redPlayers

/-- The conjunction of the `draft-ban` handler's acceptance checks: ban phase,
the caller's recorded side equals the current turn, the caller is that side's
leader, and that side's ban count is below 3. -/
def BanOk (ds : DraftState) (sid : Nat) : Prop :=
  ds.turnPhase = Phase.ban ∧
  lookupA ds.playerSides sid = some ds.currentTurn ∧
  sideLeader ds ds.currentTurn = some sid ∧
  sideBanCount ds ds.currentTurn < 3

instance (ds : DraftState) (sid : Nat) : Decidable (BanOk ds sid) := by
  unfold BanOk; infer_instance

/-- The `draft-ban` handler, acting on one `DraftState`. -/
def banApply (tid : Nat) (ds : DraftState) (sid : Nat) (pid : String) :
    DraftState × List Msg :=
  if ds.turnPhase ≠ Phase.ban then
    (ds, [⟨Target.toCaller sid, "draft-action-failed",
           "Ban phase is over! Please pick a Pokémon."⟩])
  else
    match lookupA ds.playerSides sid with
    | none =>
      (ds, [⟨Target.toCaller sid, "draft-action-failed",
             "You haven't selected a team yet"⟩])
    | some playerSide =>
      if playerSide ≠ ds.currentTurn then
        (ds, [⟨Target.toCaller sid, "draft-action-failed",
               "It's not your team's turn"⟩])
      else if ¬ ((playerSide = Side.blue ∧ ds.blueLeader = some sid) ∨
                 (playerSide = Side.red ∧ ds.redLeader = some sid)) then
        (ds, [⟨Target.toCaller sid, "draft-action-failed",
               "Only the team leader can ban Pokémon!"⟩])
      else if 3 ≤ (if playerSide = Side.blue then ds.blueBanCount else ds.redBanCount) then
        (ds, [⟨Target.toCaller sid, "draft-action-failed",
               "You have already banned 3 Pokémon!"⟩])
      else
        let ds1 := { ds with
          bans := ds.bans ++ [({ pokemonId := pid, bannerId := sid, banningTeam := playerSide } : BanEntry)]
          blueBanCount := if playerSide = Side.blue then ds.blueBanCount + 1 else ds.blueBanCount
          redBanCount := if playerSide = Side.red then ds.redBanCount + 1 else ds.redBanCount }
        let ds2 :=
          if 3 ≤ (if playerSide = Side.blue then ds1.blueBanCount else ds1.redBanCount) then
            { ds1 with currentTurn := flipSide ds1.currentTurn }
          else ds1
        if 3 ≤ ds2.blueBanCount ∧ 3 ≤ ds2.redBanCount then
          ({ ds2 with turnPhase := Phase.pick, currentTurn := Side.blue },
           [⟨Target.toTeam tid, "phase-changed", ""⟩,
            ⟨Target.toTeam tid, "draft-ban-made", ""⟩])
        else
          (ds2, [⟨Target.toTeam tid, "draft-ban-made", ""⟩])

/-- The conjunction of the `draft-pick` handler's acceptance checks: pick
phase, the caller's recorded side equals the current turn, and the caller has
not picked yet. -/
def PickOk (ds : DraftState) (sid : Nat) : Prop :=
  ds.turnPhase = Phase.pick ∧
  lookupA ds.playerSides sid = some ds.currentTurn ∧
  sid ∉ ds.playersPicked

instance (ds : DraftState) (sid : Nat) : Decidable (PickOk ds sid) := by
  unfold PickOk; infer_instance

/-- The `draft-pick` handler, acting on one `DraftState`.  Note that the
`team` recorded in the pick entry is the client-supplied `data.team`, not the
caller's recorded side. -/
def pickApply (tid : Nat) (ds : DraftState) (sid : Nat) (pid : String)
    (clientTeam : Side) : DraftState × List Msg :=
  if ds.turnPhase ≠ Phase.pick then
    (ds, [⟨Target.toCaller sid, "draft-action-failed",
           "We're still in ban phase! Please ban a Pokémon first."⟩])
  else
    match lookupA ds.playerSides sid with
    | none =>
      (ds, [⟨Target.toCaller sid, "draft-action-failed",
             "You haven't selected a team yet"⟩])
    | some playerSide =>
      if playerSide ≠ ds.currentTurn then
        (ds, [⟨Target.toCaller sid, "draft-action-failed",
               "It's not your team's turn"⟩])
      else if sid ∈ ds.playersPicked then
        (ds, [⟨Target.toCaller sid, "draft-action-failed",
               "You have already picked a Pokémon! Wait for other players."⟩])
      else
        let ds1 := { ds with
          picks := ds.picks ++ [({ pokemonId := pid, team := clientTeam, pickerId := sid } : PickEntry)]
          playersPicked := ds.playersPicked ++ [sid]
          turnNumber := ds.turnNumber + 1
          currentTurn := flipSide ds.currentTurn }
        let total := ds1.bluePlayers.length + ds1.redPlayers.length
        let ds2 :=
          if total ≤ ds1.playersPicked.length then { ds1 with turnPhase := Phase.complete }
          else { ds1 with turnPhase := Phase.pick }
        (ds2, [⟨Target.toTeam tid, "draft-pick-made", ""⟩])

/-- The `set-room-code` handler, acting on one `DraftState`: only the blue
leader, only once the draft is complete; on success the code is stored and
broadcast to the whole team room. -/
def roomApply (tid : Nat) (ds : DraftState) (sid : Nat) (code : String) :
    DraftState × List Msg :=
  if ds.blueLeader ≠ some sid then
    (ds, [⟨Target.toCaller sid, "room-code-failed",
           "Only blue team leader can set room code"⟩])
  else if ds.turnPhase ≠ Phase.complete then
    (ds, [⟨Target.toCaller sid, "room-code-failed",
           "Draft must be complete before setting room code"⟩])
  else
    ({ ds with roomCode := some code },
     [⟨Target.toTeam tid, "room-code-set", code⟩])

/-- `teams.find(t => t.id === teamId)`. -/
def findTeam : List Team → Nat → Option Team
  | [], _ => none
  | t :: ts, tid => if t.id = tid then some t else findTeam ts tid

/-- In-place mutation of the team found by `teams.find` (the first one with
the given id). -/
def replaceTeam : List Team → Nat → Team → List Team
  | [], _, _ => []
  | t :: ts, tid, t1 => if t.id = tid then t1 :: ts else t :: replaceTeam ts tid t1

/-- The `join-team` handler. -/
def joinStep (st : ServerState) (sid tid : Nat) : ServerState × List Msg :=
  match findTeam st.teams tid with
  | none => (st, [⟨Target.toCaller sid, "team-join-failed", "not-found"⟩])
  | some t =>
    if sid ∈ t.members then
      (st, [⟨Target.toCaller sid, "team-join-failed", "already-member"⟩])
    else if totalCapacity t.mode ≤ t.members.length then
      (st, [⟨Target.toCaller sid, "team-join-failed",
             "Room is full (both teams are at capacity)"⟩])
    else
      let t1 := { t with members := t.members ++ [sid] }
      ({ st with teams := replaceTeam st.teams tid t1 },
       [⟨Target.toLobbyOthers sid, "team-updated", ""⟩,
        ⟨Target.toLobby, "teams-sync", ""⟩,
        ⟨Target.toCaller sid, "team-join-success", ""⟩] ++
       (match lookupA st.draftStates tid with
        | some _ => [⟨Target.toCaller sid, "draft-state-sync", ""⟩]
        | none => []))

/-- The per-`DraftState` part of the disconnect handler: remove the socket
from both side lists and both maps, and re-elect a leader for each side whose
leader just left (null when the side became empty).  Also reports whether the
socket was on the blue / red side (for the `player-disconnected` broadcast). -/
def cleanupDraft (sid : Nat) (ds : DraftState) : DraftState × Bool × Bool :=
  let wasBlue := ds.bluePlayers.contains sid
  let wasRed := ds.redPlayers.contains sid
  let blue1 := ds.bluePlayers.filter (fun i => i != sid)
  let red1 := ds.redPlayers.filter (fun i => i != sid)
  let mmrs1 := eraseA ds.playerMMRs sid
  let sides1 := eraseA ds.playerSides sid
  let blueLeader1 :=
    if ds.blueLeader = some sid then
      (if 0 < blue1.length then findLeader mmrs1 blue1 else none)
    else ds.blueLeader
  let redLeader1 :=
    if ds.redLeader = some sid then
      (if 0 < red1.length then findLeader mmrs1 red1 else none)
    else ds.redLeader
  ({ ds with
      bluePlayers := blue1
      redPlayers := red1
      playerSides := sides1
      playerMMRs := mmrs1
      blueLeader := blueLeader1
      redLeader := redLeader1 },
   wasBlue, wasRed)

/-- The result of the disconnect handler's sweep over the team list. -/
structure DiscRes where
  teams : List Team
  dss : List (Nat × DraftState)
  msgs : List Msg
  changed : Bool

/-- The disconnect handler's loop over `teams`: for every team that lists the
socket as a member, the member entry is spliced out, the team's draft state
(when present) is cleaned up, a `player-disconnected` broadcast goes to the
team room when the socket was on a side, and a team left with no members is
deleted together with its draft state.  (The source iterates in reverse index
order; the resulting state is the same.) -/
def disconnectTeams (sid : Nat) : List Team → List (Nat × DraftState) → DiscRes
  | [], dss => ⟨[], dss, [], false⟩
  | t :: ts, dss =>
    if t.members.contains sid then
      let members1 := t.members.erase sid
      let cleaned : List (Nat × DraftState) × List Msg :=
        match lookupA dss t.id with
        | some ds =>
          let c := cleanupDraft sid ds
          (setA dss t.id c.1,
           if c.2.1 || c.2.2 then [⟨Target.toTeam t.id, "player-disconnected", ""⟩] else [])
        | none => (dss, [])
      if members1.isEmpty then
        let r := disconnectTeams sid ts (eraseA cleaned.1 t.id)
        ⟨r.teams, r.dss, cleaned.2 ++ r.msgs, true⟩
      else
        let r := disconnectTeams sid ts cleaned.1
        ⟨{ t with members := members1 } :: r.teams, r.dss, cleaned.2 ++ r.msgs, true⟩
    else
      let r := disconnectTeams sid ts dss
      ⟨t :: r.teams, r.dss, r.msgs, r.changed⟩

/-- The `disconnect` handler on the whole server state. -/
def disconnectStep (st : ServerState) (sid : Nat) : ServerState × List Msg :=
  let r := disconnectTeams sid st.teams st.draftStates
  (⟨r.teams, r.dss⟩,
   r.msgs ++ (if r.changed then [⟨Target.toLobby, "teams-sync", ""⟩] else []))

/-- The inbound client events that mutate server state.  `createTeam` carries
the freshly generated UUID as `tid`; `selectSide` carries the already-resolved
display name and MMR (the source falls back to a random MMR when the client
supplies none). -/
inductive Event where
  | createTeam : Nat → Nat → String → String → Event
  | joinTeam : Nat → Nat → Event
  | selectSide : Nat → Nat → Side → String → Nat → Event
  | draftBan : Nat → Nat → String → Event
  | draftPick : Nat → Nat → String → Side → Event
  | setRoomCode : Nat → Nat → String → Event
  | disconnect : Nat → Event
deriving DecidableEq

/-- One server step: dispatch an event to its handler, returning the new
state and the emitted messages. -/
def stepM (st : ServerState) (e : Event) : ServerState × List Msg :=
  match e with
  | Event.createTeam sid tid nm mode =>
    let team : Team := ⟨tid, nm, mode, sid, 0, [sid]⟩
    ({ teams := st.teams ++ [team], draftStates := setA st.draftStates tid (initDraft mode) },
     [⟨Target.toLobbyOthers sid, "team-created", ""⟩,
      ⟨Target.toLobby, "teams-sync", ""⟩,
      ⟨Target.toCaller sid, "team-created-success", ""⟩])
  | Event.joinTeam sid tid => joinStep st sid tid
  | Event.selectSide sid tid side nm mmr =>
    match lookupA st.draftStates tid, findTeam st.teams tid with
    | some ds, some team =>
      let r := selectSideApply tid (minPlayersFor team.mode) ds sid side nm mmr
      ({ st with draftStates := setA st.draftStates tid r.1 }, r.2)
    | _, _ => (st, [])
  | Event.draftBan sid tid pid =>
    match lookupA st.draftStates tid with
    | some ds =>
      let r := banApply tid ds sid pid
      ({ st with draftStates := setA st.draftStates tid r.1 }, r.2)
    | none => (st, [])
  | Event.draftPick sid tid pid cteam =>
    match lookupA st.draftStates tid with
    | some ds =>
      let r := pickApply tid ds sid pid cteam
      ({ st with draftStates := setA st.draftStates tid r.1 }, r.2)
    | none => (st, [])
  | Event.setRoomCode sid tid code =>
    match lookupA st.draftStates tid with
    | some ds =>
      let r := roomApply tid ds sid code
      ({ st with draftStates := setA st.draftStates tid r.1 }, r.2)
    | none => (st, [⟨Target.toCaller sid, "room-code-failed", "No draft state found"⟩])
  | Event.disconnect sid => disconnectStep st sid

/-- The state part of one server step. -/
def stepState (st : ServerState) (e : Event) : ServerState := (stepM st e).1

/-- The empty initial server state (`teams = []`, `draftStates = new Map()`). -/
def initState : ServerState := ⟨[], []⟩

/-- A run of the server: apply a list of events in arrival order. -/
def runEvents (events : List Event) : ServerState := events.foldl stepState initState

/-- Whether an event is a disconnect. -/
def isDisconnect : Event → Bool
  | Event.disconnect _ => true
  | _ => false

/-- True when a trace contains no disconnect events. -/
def noDisconnect (events : List Event) : Bool := events.all (fun e => !(isDisconnect e))

/-- The rank score the source reads for a player: the `mmr` stored in
`playerMMRs`, `0` when absent (the loops skip absent players; on the side
lists maintained by the handlers every member has an entry). -/
def mmrScore (mmrs : List (Nat × PlayerData)) (p : Nat) : Nat :=
  match lookupA mmrs p with
  | some d => d.mmr
  | none => 0

/-- Specification-shaped leader choice: the first-inserted member of the list
attaining the maximum score. -/
def firstMax (s : Nat → Nat) : List Nat → Option Nat
  | [] => none
  | p :: ps =>
    match firstMax s ps with
    | none => some p
    | some q => if s p < s q then some q else some p

/-- Left-fold formulation of `firstMax`, used to bridge to the source's loop. -/
def bestStep (s : Nat → Nat) (acc : Option Nat) (p : Nat) : Option Nat :=
  match acc with
  | none => some p
  | some q => if s q < s p then some p else some q

/-- The running maximum tracked by the source's loop for a given candidate
leader: `-1` before anyone leads. -/
def leaderInt (mmrs : List (Nat × PlayerData)) : Option Nat → Int
  | none => -1
  | some q => (mmrScore mmrs q : Int)

/-- The acceptance condition of the `join-team` handler. -/
def JoinOk (st : ServerState) (sid tid : Nat) : Prop :=
  ∃ t, findTeam st.teams tid = some t ∧ sid ∉ t.members ∧
    t.members.length < totalCapacity t.mode

/-- The acceptance condition of the `set-room-code` handler. -/
def RoomOk (st : ServerState) (sid tid : Nat) : Prop :=
  ∃ ds, lookupA st.draftStates tid = some ds ∧
    ds.blueLeader = some sid ∧ ds.turnPhase = Phase.complete

/-- The global acceptance condition of the `draft-ban` handler. -/
def BanOkG (st : ServerState) (sid tid : Nat) : Prop :=
  ∃ ds, lookupA st.draftStates tid = some ds ∧ BanOk ds sid

/-- The global acceptance condition of the `draft-pick` handler. -/
def PickOkG (st : ServerState) (sid tid : Nat) : Prop :=
  ∃ ds, lookupA st.draftStates tid = some ds ∧ PickOk ds sid

/-- Leader soundness for one side: when the side list is non-empty, every
member has a score entry and the recorded leader is the first-inserted member
with the maximum score. -/
def SideInv (mmrs : List (Nat × PlayerData)) (players : List Nat)
    (leader : Option Nat) : Prop :=
  players ≠ [] →
    (∀ p ∈ players, (lookupA mmrs p).isSome) ∧
    leader = firstMax (mmrScore mmrs) players

/-- Leader soundness of one `DraftState` (both sides). -/
def DInv (ds : DraftState) : Prop :=
  SideInv ds.playerMMRs ds.bluePlayers ds.blueLeader ∧
  SideInv ds.playerMMRs ds.redPlayers ds.redLeader

/-- Both ban counters stay within the quota. -/
def BanBound (ds : DraftState) : Prop :=
  ds.blueBanCount ≤ 3 ∧ ds.redBanCount ≤ 3

/-- Bookkeeping soundness of the picked set: no duplicates, every picked
player is on a side list, and every recorded side assignment points into the
corresponding side list. -/
def PickedInv (ds : DraftState) : Prop :=
  ds.playersPicked.Nodup ∧
  (∀ p ∈ ds.playersPicked, p ∈ ds.bluePlayers ∨ p ∈ ds.redPlayers) ∧
  (∀ p s, lookupA ds.playerSides p = some s →
    (s = Side.blue → p ∈ ds.bluePlayers) ∧ (s = Side.red → p ∈ ds.redPlayers))

/-- A predicate on draft states holding for every entry of the global map. -/
def AllP (P : DraftState → Prop) (st : ServerState) : Prop :=
  ∀ p ∈ st.draftStates, P p.2

/-- Modelled from the spec: the voting outcome `blue | red | draw` of §4.6
(the whole voting subsystem is absent from `src/`). -/
inductive VoteOutcome where
  | blue : VoteOutcome
  | red : VoteOutcome
  | draw : VoteOutcome
deriving DecidableEq

/-- Modelled from the spec: the voting sub-state of §3 (`votingActive`,
`votingDeadline`, `votes`, `winner`) together with the owning Team's status
label, none of which exist in `src/`. -/
structure VoteState where
  votingActive : Bool
  votingDeadline : Option Nat
  votes : List (Nat × Side)
  winner : Option VoteOutcome
  teamStatus : String
deriving DecidableEq

/-- Modelled from the spec: the game-duration timer firing at time `now` —
"if no vote has started and there is no winner yet, set `votingActive = true`,
`votingDeadline = now + votingWindow`". -/
def gameTimerFire (vs : VoteState) (now window : Nat) : VoteState :=
  if vs.votingActive = false ∧ vs.winner = none then
    { vs with votingActive := true, votingDeadline := some (now + window) }
  else vs

/-- Modelled from the spec: `vote(teamId, sessionId, choice)` — accepted only
while the window is active and the caller has a recorded side; an accepted
vote overwrites the caller's prior vote. -/
def voteApply (vs : VoteState) (sides : List (Nat × Side)) (sid : Nat)
    (choice : Side) : VoteState :=
  if vs.votingActive = true ∧ (lookupA sides sid).isSome then
    { vs with votes := setA vs.votes sid choice }
  else vs

/-- Modelled from the spec: the number of votes cast for one side. -/
def countVotes (votes : List (Nat × Side)) (s : Side) : Nat :=
  (votes.filter (fun p => p.2 == s)).length

/-- Modelled from the spec: the voting-window timer firing — strictly more
blue votes means blue wins, strictly more red votes means red wins, equality
(including zero votes) is a draw; the window closes and the Team is marked
finished. -/
def votingTimerFire (vs : VoteState) : VoteState :=
  { vs with
    votingActive := false
    winner := some
      (if countVotes vs.votes Side.red < countVotes vs.votes Side.blue then VoteOutcome.blue
       else if countVotes vs.votes Side.blue < countVotes vs.votes Side.red then VoteOutcome.red
       else VoteOutcome.draw)
    teamStatus := "finished" }

/-- Trace refuting claim C1: a lone player picks blue and then switches to
red, emptying the blue side while the blue leader pointer keeps its value. -/
def c1Events : List Event :=
  [Event.createTeam 1 0 "t" "5v5",
   Event.selectSide 1 0 Side.blue "a" 7,
   Event.selectSide 1 0 Side.red "a" 7]

/-- Witness trace for claim C1: two players on two sides. -/
def c1wEvents : List Event :=
  [Event.createTeam 1 0 "t" "5v5",
   Event.selectSide 1 0 Side.blue "a" 7,
   Event.selectSide 2 0 Side.red "b" 9]

/-- The draft state reached by `c1wEvents` for team 0. -/
def c1wDs : DraftState where
  picks := []
  bans := []
  currentTurn := Side.blue
  turnPhase := Phase.waiting
  turnNumber := 1
  playerSides := [(1, Side.blue), (2, Side.red)]
  bluePlayers := [1]
  redPlayers := [2]
  playersBanned := []
  playersPicked := []
  playerMMRs := [(1, ⟨"a", 7⟩), (2, ⟨"b", 9⟩)]
  blueLeader := some 1
  redLeader := some 2
  blueBanCount := 0
  redBanCount := 0
  minPlayersPerTeam := 5
  currentPickerIndex := (0, 0)
  pickOrder := []
  roomCode := none

/-- Trace refuting claim C4: a full 5v5 draft runs to completion and then one
player who already picked disconnects, leaving 10 picked players against
side lists of total size 9. -/
def c4Events : List Event :=
  [Event.createTeam 1 0 "t" "5v5",
   Event.joinTeam 2 0, Event.joinTeam 3 0, Event.joinTeam 4 0, Event.joinTeam 5 0,
   Event.joinTeam 6 0, Event.joinTeam 7 0, Event.joinTeam 8 0, Event.joinTeam 9 0,
   Event.joinTeam 10 0,
   Event.selectSide 1 0 Side.blue "p1" 101, Event.selectSide 2 0 Side.blue "p2" 102,
   Event.selectSide 3 0 Side.blue "p3" 103, Event.selectSide 4 0 Side.blue "p4" 104,
   Event.selectSide 5 0 Side.blue "p5" 105,
   Event.selectSide 6 0 Side.red "p6" 106, Event.selectSide 7 0 Side.red "p7" 107,
   Event.selectSide 8 0 Side.red "p8" 108, Event.selectSide 9 0 Side.red "p9" 109,
   Event.selectSide 10 0 Side.red "p10" 110,
   Event.draftBan 5 0 "b1", Event.draftBan 5 0 "b2", Event.draftBan 5 0 "b3",
   Event.draftBan 10 0 "b4", Event.draftBan 10 0 "b5", Event.draftBan 10 0 "b6",
   Event.draftPick 1 0 "m1" Side.blue, Event.draftPick 6 0 "m2" Side.red,
   Event.draftPick 2 0 "m3" Side.blue, Event.draftPick 7 0 "m4" Side.red,
   Event.draftPick 3 0 "m5" Side.blue, Event.draftPick 8 0 "m6" Side.red,
   Event.draftPick 4 0 "m7" Side.blue, Event.draftPick 9 0 "m8" Side.red,
   Event.draftPick 5 0 "m9" Side.blue, Event.draftPick 10 0 "m10" Side.red,
   Event.disconnect 1]

/-- Prefix of the quorum-refutation trace for claim C5: nine side selections
(4 blue, 5 red) after team creation; the draft is still waiting. -/
def c5Pre : List Event :=
  [Event.createTeam 1 0 "t" "x",
   Event.selectSide 1 0 Side.blue "p1" 101, Event.selectSide 2 0 Side.blue "p2" 102,
   Event.selectSide 3 0 Side.blue "p3" 103, Event.selectSide 4 0 Side.blue "p4" 104,
   Event.selectSide 5 0 Side.red "p5" 105, Event.selectSide 6 0 Side.red "p6" 106,
   Event.selectSide 7 0 Side.red "p7" 107, Event.selectSide 8 0 Side.red "p8" 108,
   Event.selectSide 9 0 Side.red "p9" 109]

/-- The same trace with the quorum-completing fifth blue selection. -/
def c5All : List Event := c5Pre ++ [Event.selectSide 10 0 Side.blue "p10" 42]

/-- Witness state for claim C5: one red player, quorum one per side. -/
def c5wDs : DraftState where
  picks := []
  bans := []
  currentTurn := Side.blue
  turnPhase := Phase.waiting
  turnNumber := 1
  playerSides := [(1, Side.red)]
  bluePlayers := []
  redPlayers := [1]
  playersBanned := []
  playersPicked := []
  playerMMRs := [(1, ⟨"a", 5⟩)]
  blueLeader := none
  redLeader := some 1
  blueBanCount := 0
  redBanCount := 0
  minPlayersPerTeam := 1
  currentPickerIndex := (0, 0)
  pickOrder := []
  roomCode := none

/-- Witness server state for claim C5. -/
def c5wSt : ServerState where
  teams := [⟨0, "t", "5v5", 1, 0, [1, 2]⟩]
  draftStates := [(0, c5wDs)]

/-- The draft state produced from `c5wSt` by the quorum-completing blue
selection of socket 2. -/
def c5wDsAfter : DraftState where
  picks := []
  bans := []
  currentTurn := Side.blue
  turnPhase := Phase.ban
  turnNumber := 1
  playerSides := [(1, Side.red), (2, Side.blue)]
  bluePlayers := [2]
  redPlayers := [1]
  playersBanned := []
  playersPicked := []
  playerMMRs := [(1, ⟨"a", 5⟩), (2, ⟨"b", 9⟩)]
  blueLeader := some 2
  redLeader := some 1
  blueBanCount := 0
  redBanCount := 0
  minPlayersPerTeam := 1
  currentPickerIndex := (0, 0)
  pickOrder := []
  roomCode := none

/-- Trace for claim C9: a member who selected blue, about to disconnect. -/
def c9Pre : List Event :=
  [Event.createTeam 1 0 "t" "5v5",
   Event.joinTeam 2 0,
   Event.selectSide 2 0 Side.blue "b" 9]

/-- Witness state for claim C9: a two-member team whose draft has player 1
on red and player 2 on blue. -/
def c9wSt : ServerState where
  teams := [⟨0, "t", "5v5", 1, 0, [1, 2]⟩]
  draftStates := [(0, c5wDsAfter)]

/-- Witness state for claim C2: ban phase, blue turn, caller 1 is the blue
leader with no bans used. -/
def c2wDs : DraftState where
  picks := []
  bans := []
  currentTurn := Side.blue
  turnPhase := Phase.ban
  turnNumber := 1
  playerSides := [(1, Side.blue), (2, Side.red)]
  bluePlayers := [1]
  redPlayers := [2]
  playersBanned := []
  playersPicked := []
  playerMMRs := [(1, ⟨"a", 7⟩), (2, ⟨"b", 9⟩)]
  blueLeader := some 1
  redLeader := some 2
  blueBanCount := 0
  redBanCount := 0
  minPlayersPerTeam := 5
  currentPickerIndex := (0, 0)
  pickOrder := []
  roomCode := none

/-- Witness state for claim C3: pick phase, blue turn, caller 1 has not
picked yet. -/
def c3wDs : DraftState := { c2wDs with turnPhase := Phase.pick }

/-- Witness state for claim C8: draft complete, blue leader 1. -/
def c8wDs : DraftState := { c2wDs with turnPhase := Phase.complete }

/-- Witness state for claim C10: an open voting window with one blue vote. -/
def c10wVs : VoteState where
  votingActive := true
  votingDeadline := some 10
  votes := [(1, Side.blue)]
  winner := none
  teamStatus := "live"

/-! ### Association-list lemmas -/

theorem lookupA_setA_self {α : Type} (m : List (Nat × α)) (k : Nat) (v : α) :
    lookupA (setA m k v) k = some v := by
  induction m with
  | nil => simp [setA, lookupA]
  | cons h t ih =>
    obtain ⟨k0, v0⟩ := h
    by_cases hk : k0 = k
    · simp [setA, hk, lookupA]
    · simp [setA, hk, lookupA, ih]

theorem lookupA_setA_ne {α : Type} (m : List (Nat × α)) (k k1 : Nat) (v : α)
    (h : k1 ≠ k) : lookupA (setA m k v) k1 = lookupA m k1 := by
  induction m with
  | nil =>
    simp only [setA, lookupA]
    rw [if_neg (Ne.symm h)]
  | cons p t ih =>
    obtain ⟨k0, v0⟩ := p
    by_cases hk : k0 = k
    · subst hk
      simp only [setA, if_pos rfl, lookupA]
      rw [if_neg (Ne.symm h), if_neg (Ne.symm h)]
    · simp only [setA, if_neg hk, lookupA]
      by_cases h0 : k0 = k1
      · simp [h0]
      · simp [h0, ih]

theorem setA_eq_of_lookupA {α : Type} (m : List (Nat × α)) (k : Nat) (v : α)
    (h : lookupA m k = some v) : setA m k v = m := by
  induction m with
  | nil => simp [lookupA] at h
  | cons p t ih =>
    obtain ⟨k0, v0⟩ := p
    by_cases hk : k0 = k
    · subst hk
      simp only [lookupA, if_pos rfl] at h
      obtain rfl : v0 = v := by injection h
      simp [setA]
    · simp only [lookupA, if_neg hk] at h
      simp [setA, hk, ih h]

theorem lookupA_eraseA_ne {α : Type} (m : List (Nat × α)) (k k1 : Nat)
    (h : k1 ≠ k) : lookupA (eraseA m k) k1 = lookupA m k1 := by
  induction m with
  | nil => simp [eraseA]
  | cons p t ih =>
    obtain ⟨k0, v0⟩ := p
    by_cases hk : k0 = k
    · subst hk
      simp [eraseA, lookupA, Ne.symm h]
    · simp only [eraseA, if_neg hk, lookupA]
      by_cases h0 : k0 = k1
      · simp [h0]
      · simp [h0, ih]

theorem mem_of_lookupA {α : Type} (m : List (Nat × α)) (k : Nat) (v : α)
    (h : lookupA m k = some v) : (k, v) ∈ m := by
  induction m with
  | nil => simp [lookupA] at h
  | cons p t ih =>
    obtain ⟨k0, v0⟩ := p
    by_cases hk : k0 = k
    · subst hk
      simp only [lookupA, if_pos rfl] at h
      obtain rfl : v0 = v := by injection h
      exact List.mem_cons_self _ _
    · simp only [lookupA, if_neg hk] at h
      exact List.mem_cons_of_mem _ (ih h)

theorem mem_setA {α : Type} (m : List (Nat × α)) (k : Nat) (v : α) (p : Nat × α)
    (h : p ∈ setA m k v) : p = (k, v) ∨ p ∈ m := by
  induction m with
  | nil => simpa [setA] using h
  | cons q t ih =>
    obtain ⟨k0, v0⟩ := q
    by_cases hk : k0 = k
    · subst hk
      simp only [setA, if_pos rfl] at h
      rcases List.mem_cons.mp h with h1 | h1
      · exact Or.inl h1
      · exact Or.inr (List.mem_cons_of_mem _ h1)
    · simp only [setA, if_neg hk] at h
      rcases List.mem_cons.mp h with h1 | h1
      · exact Or.inr (h1 ▸ List.mem_cons_self _ _)
      · rcases ih h1 with h2 | h2
        · exact Or.inl h2
        · exact Or.inr (List.mem_cons_of_mem _ h2)

theorem mem_eraseA {α : Type} (m : List (Nat × α)) (k : Nat) (p : Nat × α)
    (h : p ∈ eraseA m k) : p ∈ m := by
  induction m with
  | nil => exact absurd h (by simp [eraseA])
  | cons q t ih =>
    obtain ⟨k0, v0⟩ := q
    by_cases hk : k0 = k
    · subst hk
      simp only [eraseA, if_pos rfl] at h
      exact List.mem_cons_of_mem _ h
    · simp only [eraseA, if_neg hk] at h
      rcases List.mem_cons.mp h with h1 | h1
      · exact h1 ▸ List.mem_cons_self _ _
      · exact List.mem_cons_of_mem _ (ih h1)

theorem lookupA_eq_none_of_not_mem {α : Type} (m : List (Nat × α)) (k : Nat)
    (h : k ∉ m.map Prod.fst) : lookupA m k = none := by
  induction m with
  | nil => rfl
  | cons p t ih =>
    obtain ⟨k0, v0⟩ := p
    simp only [List.map_cons, List.mem_cons] at h
    push_neg at h
    simp only [lookupA]
    rw [if_neg (fun hh => h.1 hh.symm)]
    exact ih h.2

theorem keys_setA {α : Type} (m : List (Nat × α)) (k : Nat) (v : α) :
    (setA m k v).map Prod.fst =
      if k ∈ m.map Prod.fst then m.map Prod.fst else m.map Prod.fst ++ [k] := by
  induction m with
  | nil => simp [setA]
  | cons q t ih =>
    obtain ⟨k0, v0⟩ := q
    by_cases hk : k0 = k
    · subst hk
      simp [setA]
    · simp only [setA, if_neg hk, List.map_cons, ih]
      by_cases hmem : k ∈ t.map Prod.fst
      · simp [hmem, Ne.symm hk]
      · simp [hmem, Ne.symm hk]

theorem keys_nodup_setA {α : Type} (m : List (Nat × α)) (k : Nat) (v : α)
    (h : (m.map Prod.fst).Nodup) : ((setA m k v).map Prod.fst).Nodup := by
  rw [keys_setA]
  by_cases hmem : k ∈ m.map Prod.fst
  · rw [if_pos hmem]
    exact h
  · simp [hmem, List.nodup_append, h]

theorem keys_nodup_eraseA {α : Type} (m : List (Nat × α)) (k : Nat)
    (h : (m.map Prod.fst).Nodup) : ((eraseA m k).map Prod.fst).Nodup := by
  induction m with
  | nil => simp [eraseA]
  | cons q t ih =>
    obtain ⟨k0, v0⟩ := q
    simp only [List.map_cons, List.nodup_cons] at h
    by_cases hk : k0 = k
    · subst hk
      simpa [eraseA] using h.2
    · simp only [eraseA, if_neg hk, List.map_cons, List.nodup_cons]
      refine ⟨fun hmem => ?_, ih h.2⟩
      have h2 : ∀ x ∈ (eraseA t k).map Prod.fst, x ∈ t.map Prod.fst := by
        intro x hx
        rcases List.mem_map.mp hx with ⟨p, hp, rfl⟩
        exact List.mem_map.mpr ⟨p, mem_eraseA t k p hp, rfl⟩
      exact h.1 (h2 _ hmem)

theorem lookupA_eraseA_self {α : Type} (m : List (Nat × α)) (k : Nat)
    (h : (m.map Prod.fst).Nodup) : lookupA (eraseA m k) k = none := by
  induction m with
  | nil => rfl
  | cons q t ih =>
    obtain ⟨k0, v0⟩ := q
    simp only [List.map_cons, List.nodup_cons] at h
    by_cases hk : k0 = k
    · subst hk
      simp only [eraseA, if_pos rfl]
      exact lookupA_eq_none_of_not_mem t k0 h.1
    · simp only [eraseA, if_neg hk, lookupA]
      exact ih h.2

/-! ### Properties of the leader-election scan -/

theorem firstMax_cons_isSome (s : Nat → Nat) (p : Nat) (ps : List Nat) :
    (firstMax s (p :: ps)).isSome := by
  simp only [firstMax]
  cases hps : firstMax s ps with
  | none => simp
  | some q => by_cases hc : s p < s q <;> simp [hc]

theorem firstMax_eq_none (s : Nat → Nat) {l : List Nat}
    (h : firstMax s l = none) : l = [] := by
  cases l with
  | nil => rfl
  | cons p ps =>
    have := firstMax_cons_isSome s p ps
    rw [h] at this
    simp at this

theorem firstMax_cons_none (s : Nat → Nat) (p : Nat) {ps : List Nat}
    (hps : firstMax s ps = none) : firstMax s (p :: ps) = some p := by
  simp [firstMax, hps]

theorem firstMax_cons_some (s : Nat → Nat) (p : Nat) {ps : List Nat} {r : Nat}
    (hps : firstMax s ps = some r) :
    firstMax s (p :: ps) = if s p < s r then some r else some p := by
  simp [firstMax, hps]

theorem firstMax_mem (s : Nat → Nat) :
    ∀ (l : List Nat) (q : Nat), firstMax s l = some q → q ∈ l := by
  intro l
  induction l with
  | nil => intro q h; simp [firstMax] at h
  | cons p ps ih =>
    intro q h
    cases hps : firstMax s ps with
    | none =>
      rw [firstMax_cons_none s p hps] at h
      obtain rfl : p = q := by injection h
      exact List.mem_cons_self _ _
    | some r =>
      rw [firstMax_cons_some s p hps] at h
      by_cases hc : s p < s r
      · rw [if_pos hc] at h
        obtain rfl : r = q := by injection h
        exact List.mem_cons_of_mem _ (ih r hps)
      · rw [if_neg hc] at h
        obtain rfl : p = q := by injection h
        exact List.mem_cons_self _ _

theorem firstMax_le (s : Nat → Nat) :
    ∀ (l : List Nat) (q : Nat), firstMax s l = some q → ∀ x ∈ l, s x ≤ s q := by
  intro l
  induction l with
  | nil => intro q h; simp [firstMax] at h
  | cons p ps ih =>
    intro q h x hx
    cases hps : firstMax s ps with
    | none =>
      obtain rfl : ps = [] := firstMax_eq_none s hps
      rw [firstMax_cons_none s p hps] at h
      obtain rfl : p = q := by injection h
      simp only [List.mem_singleton] at hx
      subst hx
      exact le_refl _
    | some r =>
      rw [firstMax_cons_some s p hps] at h
      by_cases hc : s p < s r
      · rw [if_pos hc] at h
        obtain rfl : r = q := by injection h
        rcases List.mem_cons.mp hx with rfl | hx2
        · exact le_of_lt hc
        · exact ih r hps x hx2
      · rw [if_neg hc] at h
        obtain rfl : p = q := by injection h
        rcases List.mem_cons.mp hx with rfl | hx2
        · exact le_refl _
        · exact le_trans (ih r hps x hx2) (le_of_not_lt hc)

theorem firstMax_cons_cons (s : Nat → Nat) (q p : Nat) (ps : List Nat) :
    firstMax s (q :: p :: ps) = firstMax s ((if s q < s p then p else q) :: ps) := by
  by_cases h1 : s q < s p
  · rw [if_pos h1]
    cases hps : firstMax s ps with
    | none =>
      have h4 : firstMax s (p :: ps) = some p := firstMax_cons_none s p hps
      rw [firstMax_cons_some s q h4, if_pos h1, h4]
    | some r =>
      have h4 := firstMax_cons_some s p hps
      by_cases h2 : s p < s r
      · rw [if_pos h2] at h4
        rw [firstMax_cons_some s q h4, if_pos (lt_trans h1 h2), h4]
      · rw [if_neg h2] at h4
        rw [firstMax_cons_some s q h4, if_pos h1, h4]
  · rw [if_neg h1]
    cases hps : firstMax s ps with
    | none =>
      have h4 : firstMax s (p :: ps) = some p := firstMax_cons_none s p hps
      rw [firstMax_cons_some s q h4, if_neg h1, firstMax_cons_none s q hps]
    | some r =>
      have h4 := firstMax_cons_some s p hps
      by_cases h2 : s p < s r
      · rw [if_pos h2] at h4
        rw [firstMax_cons_some s q h4, firstMax_cons_some s q hps]
      · rw [if_neg h2] at h4
        have h3 : ¬ s q < s r := by omega
        rw [firstMax_cons_some s q h4, if_neg h1, firstMax_cons_some s q hps, if_neg h3]

theorem foldl_bestStep_cons (s : Nat → Nat) :
    ∀ (l : List Nat) (q : Nat),
      List.foldl (bestStep s) (some q) l = firstMax s (q :: l) := by
  intro l
  induction l with
  | nil => intro q; simp [firstMax, bestStep]
  | cons p ps ih =>
    intro q
    have hb : bestStep s (some q) p = some (if s q < s p then p else q) := by
      by_cases hc : s q < s p <;> simp [bestStep, hc]
    rw [List.foldl_cons, hb, ih, ← firstMax_cons_cons]

theorem foldl_bestStep_none (s : Nat → Nat) (l : List Nat) :
    List.foldl (bestStep s) none l = firstMax s l := by
  cases l with
  | nil => rfl
  | cons p ps =>
    have hb : bestStep s none p = some p := rfl
    rw [List.foldl_cons, hb, foldl_bestStep_cons]

theorem leaderFold_eq_bestFold (mmrs : List (Nat × PlayerData)) :
    ∀ (l : List Nat) (o : Option Nat),
      (∀ p ∈ l, (lookupA mmrs p).isSome) →
      (List.foldl (leaderStep mmrs) (leaderInt mmrs o, o) l).2 =
        List.foldl (bestStep (mmrScore mmrs)) o l := by
  intro l
  induction l with
  | nil => intro o _; rfl
  | cons p ps ih =>
    intro o h
    have hp : (lookupA mmrs p).isSome := h p (List.mem_cons_self _ _)
    obtain ⟨d, hd⟩ := Option.isSome_iff_exists.mp hp
    have hscore : mmrScore mmrs p = d.mmr := by simp [mmrScore, hd]
    have hL : leaderInt mmrs (some p) = (d.mmr : Int) := by
      simp [leaderInt, hscore]
    have hrest : ∀ x ∈ ps, (lookupA mmrs x).isSome :=
      fun x hx => h x (List.mem_cons_of_mem _ hx)
    rw [List.foldl_cons, List.foldl_cons]
    cases o with
    | none =>
      have hstep : leaderStep mmrs (leaderInt mmrs none, none) p =
          (leaderInt mmrs (some p), some p) := by
        rw [hL]
        unfold leaderStep
        rw [hd]
        show (if (d.mmr : Int) > (-1 : Int) then ((d.mmr : Int), some p)
              else ((-1 : Int), none)) = ((d.mmr : Int), some p)
        rw [if_pos (by omega)]
      have hbest : bestStep (mmrScore mmrs) none p = some p := rfl
      rw [hstep, hbest]
      exact ih (some p) hrest
    | some q =>
      have hq : leaderInt mmrs (some q) = (mmrScore mmrs q : Int) := rfl
      by_cases hc : mmrScore mmrs q < mmrScore mmrs p
      · have hstep : leaderStep mmrs (leaderInt mmrs (some q), some q) p =
            (leaderInt mmrs (some p), some p) := by

          rw [hL]
          unfold leaderStep
          rw [hd]
          show (if (d.mmr : Int) > (mmrScore mmrs q : Int) then ((d.mmr : Int), some p)
                else ((mmrScore mmrs q : Int), some q)) = ((d.mmr : Int), some p)
          rw [if_pos (by omega)]
        have hbest : bestStep (mmrScore mmrs) (some q) p = some p := by
          simp [bestStep, hc]
        rw [hstep, hbest]
        exact ih (some p) hrest
      · have hstep : leaderStep mmrs (leaderInt mmrs (some q), some q) p =
            (leaderInt mmrs (some q), some q) := by
          unfold leaderStep
          rw [hd]
          show (if (d.mmr : Int) > (mmrScore mmrs q : Int) then ((d.mmr : Int), some p)
                else ((mmrScore mmrs q : Int), some q)) =
            (leaderInt mmrs (some q), some q)
          rw [if_neg (by omega), hq]
        have hbest : bestStep (mmrScore mmrs) (some q) p = some q := by
          simp [bestStep, hc]
        rw [hstep, hbest]
        exact ih (some q) hrest

theorem findLeader_eq_firstMax (mmrs : List (Nat × PlayerData)) (l : List Nat)
    (h : ∀ p ∈ l, (lookupA mmrs p).isSome) :
    findLeader mmrs l = firstMax (mmrScore mmrs) l := by
  have h0 : findLeader mmrs l = (List.foldl (leaderStep mmrs) (leaderInt mmrs none, none) l).2 := rfl
  rw [h0, leaderFold_eq_bestFold mmrs l none h, foldl_bestStep_none]

theorem firstMax_congr (s1 s : Nat → Nat) :
    ∀ (l : List Nat), (∀ p ∈ l, s1 p = s p) → firstMax s1 l = firstMax s l := by
  intro l
  induction l with
  | nil => intro _; rfl
  | cons p ps ih =>
    intro h
    have hps := ih fun x hx => h x (List.mem_cons_of_mem _ hx)
    cases hq : firstMax s ps with
    | none =>
      rw [firstMax_cons_none s p hq, firstMax_cons_none s1 p (hps.trans hq)]
    | some q =>
      have hq1 : s1 q = s q := h q (List.mem_cons_of_mem _ (firstMax_mem s ps q hq))
      rw [firstMax_cons_some s p hq, firstMax_cons_some s1 p (hps.trans hq),
        h p (List.mem_cons_self _ _), hq1]

theorem firstMax_filter_ne (s s1 : Nat → Nat) (sid : Nat) :
    ∀ (l : List Nat) (L : Nat), firstMax s l = some L → L ≠ sid →
      (∀ p ∈ l, p ≠ sid → s1 p = s p) →
      firstMax s1 (l.filter (fun i => i != sid)) = some L := by
  intro l
  induction l with
  | nil => intro L h; simp [firstMax] at h
  | cons p ps ih =>
    intro L h hL hagree
    have hagree2 : ∀ x ∈ ps, x ≠ sid → s1 x = s x :=
      fun x hx => hagree x (List.mem_cons_of_mem _ hx)
    by_cases hp : p = sid
    · subst hp
      rw [List.filter_cons_of_neg (by simp)]
      cases hps : firstMax s ps with
      | none =>
        rw [firstMax_cons_none s p hps] at h
        obtain rfl : p = L := by injection h
        exact absurd rfl hL
      | some r =>
        rw [firstMax_cons_some s p hps] at h
        by_cases hc : s p < s r
        · rw [if_pos hc] at h
          obtain rfl : r = L := by injection h
          exact ih r hps hL hagree2
        · rw [if_neg hc] at h
          obtain rfl : p = L := by injection h
          exact absurd rfl hL
    · rw [List.filter_cons_of_pos (by simp [hp])]
      cases hps : firstMax s ps with
      | none =>
        obtain rfl : ps = [] := firstMax_eq_none s hps
        rw [firstMax_cons_none s p hps] at h
        obtain rfl : p = L := by injection h
        exact firstMax_cons_none s1 p (by simp [firstMax])
      | some r =>
        rw [firstMax_cons_some s p hps] at h
        by_cases hr : r = sid
        · by_cases hc : s p < s r
          · rw [if_pos hc] at h
            obtain rfl : r = L := by injection h
            exact absurd hr hL
          · rw [if_neg hc] at h
            obtain rfl : p = L := by injection h
            cases hfq : firstMax s1 (ps.filter (fun i => i != sid)) with
            | none => exact firstMax_cons_none s1 p hfq
            | some q1 =>
              have hq1mem : q1 ∈ ps.filter (fun i => i != sid) :=
                firstMax_mem s1 _ q1 hfq
              have hq1ps : q1 ∈ ps := List.mem_of_mem_filter hq1mem
              have hq1ne : q1 ≠ sid := by
                have := List.of_mem_filter hq1mem
                simpa using this
              have hq1s : s1 q1 = s q1 := hagree2 q1 hq1ps hq1ne
              have hle : s q1 ≤ s r := firstMax_le s ps r hps q1 hq1ps
              have hps1 : s1 p = s p := hagree p (List.mem_cons_self _ _) hp
              have hple : ¬ s1 p < s1 q1 := by
                rw [hq1s, hps1]
                omega
              rw [firstMax_cons_some s1 p hfq, if_neg hple]
        · have hfr := ih r hps hr hagree2
          rw [firstMax_cons_some s1 p hfr,
              hagree p (List.mem_cons_self _ _) hp,
              hagree2 r (firstMax_mem s ps r hps) hr]
          exact h

/-! ### Behaviour of the ban handler -/

theorem banApply_spec (tid : Nat) (ds : DraftState) (sid : Nat) (pid : String) :
    (¬ BanOk ds sid → (banApply tid ds sid pid).1 = ds ∧
      (banApply tid ds sid pid).2.map Msg.target = [Target.toCaller sid]) ∧
    (BanOk ds sid →
      (banApply tid ds sid pid).1.picks = ds.picks ∧
      (banApply tid ds sid pid).1.bans = ds.bans ++ [⟨pid, sid, ds.currentTurn⟩] ∧
      (banApply tid ds sid pid).1.playerSides = ds.playerSides ∧
      (banApply tid ds sid pid).1.bluePlayers = ds.bluePlayers ∧
      (banApply tid ds sid pid).1.redPlayers = ds.redPlayers ∧
      (banApply tid ds sid pid).1.playersPicked = ds.playersPicked ∧
      (banApply tid ds sid pid).1.playerMMRs = ds.playerMMRs ∧
      (banApply tid ds sid pid).1.blueLeader = ds.blueLeader ∧
      (banApply tid ds sid pid).1.redLeader = ds.redLeader ∧
      (banApply tid ds sid pid).1.turnNumber = ds.turnNumber ∧
      sideBanCount (banApply tid ds sid pid).1 ds.currentTurn =
        sideBanCount ds ds.currentTurn + 1 ∧
      sideBanCount (banApply tid ds sid pid).1 (flipSide ds.currentTurn) =
        sideBanCount ds (flipSide ds.currentTurn) ∧
      (banApply tid ds sid pid).1.currentTurn =
        (if 3 ≤ sideBanCount ds ds.currentTurn + 1 ∧
            3 ≤ sideBanCount ds (flipSide ds.currentTurn) then Side.blue
         else if 3 ≤ sideBanCount ds ds.currentTurn + 1 then flipSide ds.currentTurn
         else ds.currentTurn) ∧
      (banApply tid ds sid pid).1.turnPhase =
        (if 3 ≤ sideBanCount ds ds.currentTurn + 1 ∧
            3 ≤ sideBanCount ds (flipSide ds.currentTurn) then Phase.pick
         else Phase.ban)) := by
  constructor
  · intro hno
    unfold banApply
    by_cases h1 : ds.turnPhase = Phase.ban
    case neg =>
      rw [if_pos h1]
      exact ⟨rfl, rfl⟩
    rw [if_neg (by simp [h1])]
    cases h2 : lookupA ds.playerSides sid with
    | none => exact ⟨rfl, rfl⟩
    | some pside =>
      dsimp only
      by_cases h3 : pside = ds.currentTurn
      case neg =>
        rw [if_pos h3]
        exact ⟨rfl, rfl⟩
      rw [if_neg (by simp [h3])]
      subst h3
      by_cases h4 : (ds.currentTurn = Side.blue ∧ ds.blueLeader = some sid) ∨
          (ds.currentTurn = Side.red ∧ ds.redLeader = some sid)
      case neg =>
        rw [if_pos h4]
        exact ⟨rfl, rfl⟩
      rw [if_neg (by simp [h4])]
      by_cases h5 : 3 ≤ (if ds.currentTurn = Side.blue then ds.blueBanCount else ds.redBanCount)
      case pos =>
        rw [if_pos h5]
        exact ⟨rfl, rfl⟩
      exfalso
      apply hno
      refine ⟨h1, h2, ?_, ?_⟩
      · cases hct : ds.currentTurn with
        | blue =>
          rw [hct] at h4
          simp only [sideLeader]
          rcases h4 with ⟨_, hl⟩ | ⟨hc, _⟩
          · exact hl
          · cases hc
        | red =>
          rw [hct] at h4
          simp only [sideLeader]
          rcases h4 with ⟨hc, _⟩ | ⟨_, hl⟩
          · cases hc
          · exact hl
      · cases hct : ds.currentTurn with
        | blue =>
          rw [hct] at h5
          simp only [sideBanCount]
          simp at h5
          omega
        | red =>
          rw [hct] at h5
          simp only [sideBanCount]
          simp at h5
          omega
  · intro hok
    obtain ⟨h1, h2, h3, h4⟩ := hok
    unfold banApply
    rw [if_neg (by simp [h1]), h2]
    dsimp only
    rw [if_neg (by simp)]
    cases hct : ds.currentTurn with
    | blue =>
      rw [hct] at h3 h4
      simp only [sideLeader] at h3
      simp only [sideBanCount] at h4
      have hlt : ¬ 3 ≤ ds.blueBanCount := by omega
      by_cases hdone : 3 ≤ ds.blueBanCount + 1
      · by_cases hother : 3 ≤ ds.redBanCount
        · simp [sideBanCount, flipSide, h1, h3, hlt, hdone, hother]
        · simp [sideBanCount, flipSide, h1, h3, hlt, hdone, hother]
      · simp [sideBanCount, flipSide, h1, h3, hlt, hdone]
    | red =>
      rw [hct] at h3 h4
      simp only [sideLeader] at h3
      simp only [sideBanCount] at h4
      have hlt : ¬ 3 ≤ ds.redBanCount := by omega
      by_cases hdone : 3 ≤ ds.redBanCount + 1
      · by_cases hother : 3 ≤ ds.blueBanCount
        · simp [sideBanCount, flipSide, h1, h3, hlt, hdone, hother]
        · simp [sideBanCount, flipSide, h1, h3, hlt, hdone, hother]
      · simp [sideBanCount, flipSide, h1, h3, hlt, hdone]

/-! ### Behaviour of the pick and room-code handlers -/

theorem pickApply_spec (tid : Nat) (ds : DraftState) (sid : Nat) (pid : String)
    (ct : Side) :
    (¬ PickOk ds sid → (pickApply tid ds sid pid ct).1 = ds ∧
      (pickApply tid ds sid pid ct).2.map Msg.target = [Target.toCaller sid]) ∧
    (PickOk ds sid →
      (pickApply tid ds sid pid ct).1 =
        { ds with
          picks := ds.picks ++ [⟨pid, ct, sid⟩]
          playersPicked := ds.playersPicked ++ [sid]
          turnNumber := ds.turnNumber + 1
          currentTurn := flipSide ds.currentTurn
          turnPhase :=
            if ds.bluePlayers.length + ds.redPlayers.length ≤ ds.playersPicked.length + 1
            then Phase.complete else Phase.pick } ∧
      (pickApply tid ds sid pid ct).2 = [⟨Target.toTeam tid, "draft-pick-made", ""⟩]) := by
  constructor
  · intro hno
    unfold pickApply
    by_cases h1 : ds.turnPhase = Phase.pick
    case neg =>
      rw [if_pos h1]
      exact ⟨rfl, rfl⟩
    rw [if_neg (by simp [h1])]
    cases h2 : lookupA ds.playerSides sid with
    | none => exact ⟨rfl, rfl⟩
    | some pside =>
      dsimp only
      by_cases h3 : pside = ds.currentTurn
      case neg =>
        rw [if_pos h3]
        exact ⟨rfl, rfl⟩
      rw [if_neg (by simp [h3])]
      subst h3
      by_cases h4 : sid ∈ ds.playersPicked
      case pos =>
        rw [if_pos h4]
        exact ⟨rfl, rfl⟩
      exact absurd ⟨h1, h2, h4⟩ hno
  · intro hok
    obtain ⟨h1, h2, h3⟩ := hok
    unfold pickApply
    rw [if_neg (by simp [h1]), h2]
    dsimp only
    rw [if_neg (by simp), if_neg h3]
    refine ⟨?_, rfl⟩
    by_cases hc : ds.bluePlayers.length + ds.redPlayers.length ≤ ds.playersPicked.length + 1
    · simp [hc]
    · simp [hc]

theorem roomApply_spec (tid : Nat) (ds : DraftState) (sid : Nat) (code : String) :
    (¬ (ds.blueLeader = some sid ∧ ds.turnPhase = Phase.complete) →
      (roomApply tid ds sid code).1 = ds ∧
      (roomApply tid ds sid code).2.map Msg.target = [Target.toCaller sid]) ∧
    (ds.blueLeader = some sid → ds.turnPhase = Phase.complete →
      roomApply tid ds sid code =
        ({ ds with roomCode := some code },
         [⟨Target.toTeam tid, "room-code-set", code⟩])) := by
  constructor
  · intro hno
    unfold roomApply
    by_cases h1 : ds.blueLeader = some sid
    case neg =>
      rw [if_pos h1]
      exact ⟨rfl, rfl⟩
    rw [if_neg (by simp [h1])]
    by_cases h2 : ds.turnPhase = Phase.complete
    case neg =>
      rw [if_pos h2]
      exact ⟨rfl, rfl⟩
    exact absurd ⟨h1, h2⟩ hno
  · intro h1 h2
    unfold roomApply
    rw [if_neg (by simp [h1]), if_neg (by simp [h2])]

/-! ### Behaviour of the side-selection handler -/

theorem updateLeaders_fields (ds : DraftState) :
    (updateLeaders ds).picks = ds.picks ∧
    (updateLeaders ds).bans = ds.bans ∧
    (updateLeaders ds).currentTurn = ds.currentTurn ∧
    (updateLeaders ds).turnPhase = ds.turnPhase ∧
    (updateLeaders ds).turnNumber = ds.turnNumber ∧
    (updateLeaders ds).playerSides = ds.playerSides ∧
    (updateLeaders ds).bluePlayers = ds.bluePlayers ∧
    (updateLeaders ds).redPlayers = ds.redPlayers ∧
    (updateLeaders ds).playersPicked = ds.playersPicked ∧
    (updateLeaders ds).playerMMRs = ds.playerMMRs ∧
    (updateLeaders ds).blueBanCount = ds.blueBanCount ∧
    (updateLeaders ds).redBanCount = ds.redBanCount ∧
    (updateLeaders ds).minPlayersPerTeam = ds.minPlayersPerTeam := by
  unfold updateLeaders
  by_cases h1 : 0 < ds.bluePlayers.length
  · rw [if_pos h1]
    dsimp only
    by_cases h2 : 0 < ds.redPlayers.length
    · rw [if_pos h2]
      exact ⟨rfl, rfl, rfl, rfl, rfl, rfl, rfl, rfl, rfl, rfl, rfl, rfl, rfl⟩
    · rw [if_neg h2]
      exact ⟨rfl, rfl, rfl, rfl, rfl, rfl, rfl, rfl, rfl, rfl, rfl, rfl, rfl⟩
  · rw [if_neg h1]
    by_cases h2 : 0 < ds.redPlayers.length
    · rw [if_pos h2]
      exact ⟨rfl, rfl, rfl, rfl, rfl, rfl, rfl, rfl, rfl, rfl, rfl, rfl, rfl⟩
    · rw [if_neg h2]
      exact ⟨rfl, rfl, rfl, rfl, rfl, rfl, rfl, rfl, rfl, rfl, rfl, rfl, rfl⟩

theorem updateLeaders_DInv (ds : DraftState)
    (hb : ∀ p ∈ ds.bluePlayers, (lookupA ds.playerMMRs p).isSome)
    (hr : ∀ p ∈ ds.redPlayers, (lookupA ds.playerMMRs p).isSome) :
    DInv (updateLeaders ds) := by
  unfold updateLeaders
  by_cases h1 : 0 < ds.bluePlayers.length
  · rw [if_pos h1]
    dsimp only
    by_cases h2 : 0 < ds.redPlayers.length
    · rw [if_pos h2]
      constructor
      · intro _
        exact ⟨hb, findLeader_eq_firstMax _ _ hb⟩
      · intro _
        exact ⟨hr, findLeader_eq_firstMax _ _ hr⟩
    · rw [if_neg h2]
      constructor
      · intro _
        exact ⟨hb, findLeader_eq_firstMax _ _ hb⟩
      · intro hne
        exact absurd (List.length_pos.mpr hne) h2
  · rw [if_neg h1]
    by_cases h2 : 0 < ds.redPlayers.length
    · rw [if_pos h2]
      constructor
      · intro hne
        exact absurd (List.length_pos.mpr hne) h1
      · intro _
        exact ⟨hr, findLeader_eq_firstMax _ _ hr⟩
    · rw [if_neg h2]
      constructor
      · intro hne
        exact absurd (List.length_pos.mpr hne) h1
      · intro hne
        exact absurd (List.length_pos.mpr hne) h2

theorem selectSide_core_DInv (ds : DraftState) (sid : Nat) (side : Side)
    (nm : String) (mmr : Nat) (h : DInv ds) :
    DInv (updateLeaders { ds with
      bluePlayers :=
        if side = Side.blue then ds.bluePlayers.filter (fun i => i != sid) ++ [sid]
        else ds.bluePlayers.filter (fun i => i != sid)
      redPlayers :=
        if side = Side.red then ds.redPlayers.filter (fun i => i != sid) ++ [sid]
        else ds.redPlayers.filter (fun i => i != sid)
      playerSides := setA ds.playerSides sid side
      playerMMRs := setA ds.playerMMRs sid ⟨nm, mmr⟩ }) := by
  apply updateLeaders_DInv
  · intro p hp
    by_cases hps : p = sid
    · subst hps
      rw [lookupA_setA_self]
      rfl
    · rw [lookupA_setA_ne _ _ _ _ hps]
      have hpmem : p ∈ ds.bluePlayers := by
        by_cases hside : side = Side.blue
        · rw [if_pos hside] at hp
          rcases List.mem_append.mp hp with h1 | h1
          · exact List.mem_of_mem_filter h1
          · simp only [List.mem_singleton] at h1
            exact absurd h1 hps
        · rw [if_neg hside] at hp
          exact List.mem_of_mem_filter hp
      exact (h.1 (List.ne_nil_of_mem hpmem)).1 p hpmem
  · intro p hp
    by_cases hps : p = sid
    · subst hps
      rw [lookupA_setA_self]
      rfl
    · rw [lookupA_setA_ne _ _ _ _ hps]
      have hpmem : p ∈ ds.redPlayers := by
        by_cases hside : side = Side.red
        · rw [if_pos hside] at hp
          rcases List.mem_append.mp hp with h1 | h1
          · exact List.mem_of_mem_filter h1
          · simp only [List.mem_singleton] at h1
            exact absurd h1 hps
        · rw [if_neg hside] at hp
          exact List.mem_of_mem_filter hp
      exact (h.2 (List.ne_nil_of_mem hpmem)).1 p hpmem

theorem DInv_ite (C : Prop) [Decidable C] (x y : DraftState) (hx : DInv x)
    (hy : DInv y) : DInv (if C then x else y) := by
  split
  · exact hx
  · exact hy

theorem updateLeaders_eq (x : DraftState) :
    updateLeaders x = { x with
      blueLeader :=
        if 0 < x.bluePlayers.length then findLeader x.playerMMRs x.bluePlayers
        else x.blueLeader
      redLeader :=
        if 0 < x.redPlayers.length then findLeader x.playerMMRs x.redPlayers
        else x.redLeader } := by
  unfold updateLeaders
  by_cases h1 : 0 < x.bluePlayers.length
  · rw [if_pos h1]
    dsimp only
    by_cases h2 : 0 < x.redPlayers.length
    · rw [if_pos h2, if_pos h1, if_pos h2]
    · rw [if_neg h2, if_pos h1, if_neg h2]
  · rw [if_neg h1]
    by_cases h2 : 0 < x.redPlayers.length
    · rw [if_pos h2, if_neg h1, if_pos h2]
    · rw [if_neg h2, if_neg h1, if_neg h2]

theorem selectSideApply_DInv (tid cap : Nat) (ds : DraftState) (sid : Nat)
    (side : Side) (nm : String) (mmr : Nat) (h : DInv ds) :
    DInv (selectSideApply tid cap ds sid side nm mmr).1 := by
  unfold selectSideApply
  by_cases hcb : side = Side.blue ∧ cap ≤ ds.bluePlayers.length
  · rw [if_pos hcb]
    exact h
  rw [if_neg hcb]
  by_cases hcr : side = Side.red ∧ cap ≤ ds.redPlayers.length
  · rw [if_pos hcr]
    exact h
  rw [if_neg hcr]
  dsimp only
  have key := selectSide_core_DInv ds sid side nm mmr h
  set x := updateLeaders _ with hx
  split
  · exact key
  · exact key

/-! ### Preservation of the invariants by each handler -/

theorem DInv_of_fields (x y : DraftState)
    (h1 : x.playerMMRs = y.playerMMRs) (h2 : x.bluePlayers = y.bluePlayers)
    (h3 : x.redPlayers = y.redPlayers) (h4 : x.blueLeader = y.blueLeader)
    (h5 : x.redLeader = y.redLeader) (h : DInv y) : DInv x := by
  unfold DInv SideInv at h ⊢
  rw [h1, h2, h3, h4, h5]
  exact h

theorem PickedInv_of_fields (x y : DraftState)
    (h1 : x.playersPicked = y.playersPicked) (h2 : x.bluePlayers = y.bluePlayers)
    (h3 : x.redPlayers = y.redPlayers) (h4 : x.playerSides = y.playerSides)
    (h : PickedInv y) : PickedInv x := by
  unfold PickedInv at h ⊢
  rw [h1, h2, h3, h4]
  exact h

theorem BanBound_of_fields (x y : DraftState)
    (h1 : x.blueBanCount = y.blueBanCount) (h2 : x.redBanCount = y.redBanCount)
    (h : BanBound y) : BanBound x := by
  unfold BanBound at h ⊢
  rw [h1, h2]
  exact h

theorem banApply_DInv (tid : Nat) (ds : DraftState) (sid : Nat) (pid : String)
    (h : DInv ds) : DInv (banApply tid ds sid pid).1 := by
  by_cases hok : BanOk ds sid
  · obtain ⟨_, _, _, _, _, _, h7, h8, h9, _⟩ := (banApply_spec tid ds sid pid).2 hok
    exact DInv_of_fields _ ds h7 ((banApply_spec tid ds sid pid).2 hok).2.2.2.1
      ((banApply_spec tid ds sid pid).2 hok).2.2.2.2.1 h8 h9 h
  · rw [((banApply_spec tid ds sid pid).1 hok).1]
    exact h

theorem pickApply_DInv (tid : Nat) (ds : DraftState) (sid : Nat) (pid : String)
    (ct : Side) (h : DInv ds) : DInv (pickApply tid ds sid pid ct).1 := by
  by_cases hok : PickOk ds sid
  · rw [((pickApply_spec tid ds sid pid ct).2 hok).1]
    exact DInv_of_fields _ ds rfl rfl rfl rfl rfl h
  · rw [((pickApply_spec tid ds sid pid ct).1 hok).1]
    exact h

theorem roomApply_DInv (tid : Nat) (ds : DraftState) (sid : Nat) (code : String)
    (h : DInv ds) : DInv (roomApply tid ds sid code).1 := by
  by_cases hok : ds.blueLeader = some sid ∧ ds.turnPhase = Phase.complete
  · have := (roomApply_spec tid ds sid code).2 hok.1 hok.2
    rw [show (roomApply tid ds sid code).1 = { ds with roomCode := some code } from by
      rw [this]]
    exact DInv_of_fields _ ds rfl rfl rfl rfl rfl h
  · rw [((roomApply_spec tid ds sid code).1 hok).1]
    exact h

theorem cleanupDraft_fields (sid : Nat) (ds : DraftState) :
    (cleanupDraft sid ds).1.picks = ds.picks ∧
    (cleanupDraft sid ds).1.bans = ds.bans ∧
    (cleanupDraft sid ds).1.currentTurn = ds.currentTurn ∧
    (cleanupDraft sid ds).1.turnPhase = ds.turnPhase ∧
    (cleanupDraft sid ds).1.turnNumber = ds.turnNumber ∧
    (cleanupDraft sid ds).1.playersPicked = ds.playersPicked ∧
    (cleanupDraft sid ds).1.blueBanCount = ds.blueBanCount ∧
    (cleanupDraft sid ds).1.redBanCount = ds.redBanCount ∧
    (cleanupDraft sid ds).1.minPlayersPerTeam = ds.minPlayersPerTeam := by
  exact ⟨rfl, rfl, rfl, rfl, rfl, rfl, rfl, rfl, rfl⟩

theorem cleanupDraft_DInv (sid : Nat) (ds : DraftState) (h : DInv ds) :
    DInv (cleanupDraft sid ds).1 := by
  unfold cleanupDraft
  dsimp only
  constructor
  · intro hne
    have hb0 : ds.bluePlayers ≠ [] := by
      intro h0
      rw [h0] at hne
      simp at hne
    obtain ⟨hent, hlead⟩ := h.1 hb0
    have hent1 : ∀ p ∈ ds.bluePlayers.filter (fun i => i != sid),
        (lookupA (eraseA ds.playerMMRs sid) p).isSome := by
      intro p hp
      have hpne : p ≠ sid := by simpa using List.of_mem_filter hp
      rw [lookupA_eraseA_ne _ _ _ hpne]
      exact hent p (List.mem_of_mem_filter hp)
    refine ⟨hent1, ?_⟩
    by_cases hl : ds.blueLeader = some sid
    · rw [if_pos hl, if_pos (List.length_pos.mpr hne)]
      exact findLeader_eq_firstMax _ _ hent1
    · rw [if_neg hl]
      cases hfm : firstMax (mmrScore ds.playerMMRs) ds.bluePlayers with
      | none => exact absurd (firstMax_eq_none _ hfm) hb0
      | some L =>
        have hLs : ds.blueLeader = some L := by rw [hlead, hfm]
        have hLne : L ≠ sid := by
          intro he
          rw [he] at hLs
          exact hl hLs
        rw [hLs]
        refine (firstMax_filter_ne (mmrScore ds.playerMMRs)
          (mmrScore (eraseA ds.playerMMRs sid)) sid ds.bluePlayers L hfm hLne ?_).symm
        intro p _ hpne
        unfold mmrScore
        rw [lookupA_eraseA_ne _ _ _ hpne]
  · intro hne
    have hb0 : ds.redPlayers ≠ [] := by
      intro h0
      rw [h0] at hne
      simp at hne
    obtain ⟨hent, hlead⟩ := h.2 hb0
    have hent1 : ∀ p ∈ ds.redPlayers.filter (fun i => i != sid),
        (lookupA (eraseA ds.playerMMRs sid) p).isSome := by
      intro p hp
      have hpne : p ≠ sid := by simpa using List.of_mem_filter hp
      rw [lookupA_eraseA_ne _ _ _ hpne]
      exact hent p (List.mem_of_mem_filter hp)
    refine ⟨hent1, ?_⟩
    by_cases hl : ds.redLeader = some sid
    · rw [if_pos hl, if_pos (List.length_pos.mpr hne)]
      exact findLeader_eq_firstMax _ _ hent1
    · rw [if_neg hl]
      cases hfm : firstMax (mmrScore ds.playerMMRs) ds.redPlayers with
      | none => exact absurd (firstMax_eq_none _ hfm) hb0
      | some L =>
        have hLs : ds.redLeader = some L := by rw [hlead, hfm]
        have hLne : L ≠ sid := by
          intro he
          rw [he] at hLs
          exact hl hLs
        rw [hLs]
        refine (firstMax_filter_ne (mmrScore ds.playerMMRs)
          (mmrScore (eraseA ds.playerMMRs sid)) sid ds.redPlayers L hfm hLne ?_).symm
        intro p _ hpne
        unfold mmrScore
        rw [lookupA_eraseA_ne _ _ _ hpne]

theorem banApply_BanBound (tid : Nat) (ds : DraftState) (sid : Nat) (pid : String)
    (h : BanBound ds) : BanBound (banApply tid ds sid pid).1 := by
  obtain ⟨hb3, hr3⟩ := h
  by_cases hok : BanOk ds sid
  · obtain ⟨_, _, _, _, _, _, _, _, _, _, hc1, hc2, _, _⟩ :=
      (banApply_spec tid ds sid pid).2 hok
    have hlt := hok.2.2.2
    cases hct : ds.currentTurn with
    | blue =>
      rw [hct] at hc1 hc2 hlt
      simp only [sideBanCount, flipSide] at hc1 hc2 hlt
      exact ⟨by omega, by omega⟩
    | red =>
      rw [hct] at hc1 hc2 hlt
      simp only [sideBanCount, flipSide] at hc1 hc2 hlt
      exact ⟨by omega, by omega⟩
  · rw [((banApply_spec tid ds sid pid).1 hok).1]
    exact ⟨hb3, hr3⟩

theorem pickApply_BanBound (tid : Nat) (ds : DraftState) (sid : Nat) (pid : String)
    (ct : Side) (h : BanBound ds) : BanBound (pickApply tid ds sid pid ct).1 := by
  by_cases hok : PickOk ds sid
  · rw [((pickApply_spec tid ds sid pid ct).2 hok).1]
    exact BanBound_of_fields _ ds rfl rfl h
  · rw [((pickApply_spec tid ds sid pid ct).1 hok).1]
    exact h

theorem roomApply_BanBound (tid : Nat) (ds : DraftState) (sid : Nat) (code : String)
    (h : BanBound ds) : BanBound (roomApply tid ds sid code).1 := by
  by_cases hok : ds.blueLeader = some sid ∧ ds.turnPhase = Phase.complete
  · rw [show (roomApply tid ds sid code).1 = { ds with roomCode := some code } from by
      rw [(roomApply_spec tid ds sid code).2 hok.1 hok.2]]
    exact BanBound_of_fields _ ds rfl rfl h
  · rw [((roomApply_spec tid ds sid code).1 hok).1]
    exact h

theorem selectSideApply_frame (tid cap : Nat) (ds : DraftState) (sid : Nat)
    (side : Side) (nm : String) (mmr : Nat) :
    (selectSideApply tid cap ds sid side nm mmr).1.blueBanCount = ds.blueBanCount ∧
    (selectSideApply tid cap ds sid side nm mmr).1.redBanCount = ds.redBanCount ∧
    (selectSideApply tid cap ds sid side nm mmr).1.playersPicked = ds.playersPicked ∧
    ((selectSideApply tid cap ds sid side nm mmr).1.turnPhase = ds.turnPhase ∨
      (selectSideApply tid cap ds sid side nm mmr).1.turnPhase = Phase.ban) ∧
    (selectSideApply tid cap ds sid side nm mmr).1.minPlayersPerTeam =
      ds.minPlayersPerTeam := by
  unfold selectSideApply
  by_cases hcb : side = Side.blue ∧ cap ≤ ds.bluePlayers.length
  · rw [if_pos hcb]
    exact ⟨rfl, rfl, rfl, Or.inl rfl, rfl⟩
  rw [if_neg hcb]
  by_cases hcr : side = Side.red ∧ cap ≤ ds.redPlayers.length
  · rw [if_pos hcr]
    exact ⟨rfl, rfl, rfl, Or.inl rfl, rfl⟩
  rw [if_neg hcr]
  dsimp only
  set x := updateLeaders _ with hxeq
  split
  · rw [hxeq, updateLeaders_eq]
    exact ⟨rfl, rfl, rfl, Or.inr rfl, rfl⟩
  · rw [hxeq, updateLeaders_eq]
    exact ⟨rfl, rfl, rfl, Or.inl rfl, rfl⟩

theorem selectSideApply_BanBound (tid cap : Nat) (ds : DraftState) (sid : Nat)
    (side : Side) (nm : String) (mmr : Nat) (h : BanBound ds) :
    BanBound (selectSideApply tid cap ds sid side nm mmr).1 := by
  obtain ⟨h1, h2, _, _, _⟩ := selectSideApply_frame tid cap ds sid side nm mmr
  exact BanBound_of_fields _ ds h1 h2 h

theorem cleanupDraft_BanBound (sid : Nat) (ds : DraftState) (h : BanBound ds) :
    BanBound (cleanupDraft sid ds).1 := by
  exact BanBound_of_fields _ ds rfl rfl h

theorem selectSide_core_PickedInv (ds : DraftState) (sid : Nat) (side : Side)
    (nm : String) (mmr : Nat) (h : PickedInv ds) :
    PickedInv (updateLeaders { ds with
      bluePlayers :=
        if side = Side.blue then ds.bluePlayers.filter (fun i => i != sid) ++ [sid]
        else ds.bluePlayers.filter (fun i => i != sid)
      redPlayers :=
        if side = Side.red then ds.redPlayers.filter (fun i => i != sid) ++ [sid]
        else ds.redPlayers.filter (fun i => i != sid)
      playerSides := setA ds.playerSides sid side
      playerMMRs := setA ds.playerMMRs sid ⟨nm, mmr⟩ }) := by
  rw [updateLeaders_eq]
  unfold PickedInv
  dsimp only
  refine ⟨h.1, ?_, ?_⟩
  · intro p hp
    rcases h.2.1 p hp with hb | hr
    · by_cases hps : p = sid
      · subst hps
        cases side with
        | blue => exact Or.inl (by simp)
        | red => exact Or.inr (by simp)
      · have hf : p ∈ ds.bluePlayers.filter (fun i => i != sid) :=
          List.mem_filter.mpr ⟨hb, by simpa using hps⟩
        refine Or.inl ?_
        by_cases hside : side = Side.blue
        · rw [if_pos hside]
          exact List.mem_append.mpr (Or.inl hf)
        · rw [if_neg hside]
          exact hf
    · by_cases hps : p = sid
      · subst hps
        cases side with
        | blue => exact Or.inl (by simp)
        | red => exact Or.inr (by simp)
      · have hf : p ∈ ds.redPlayers.filter (fun i => i != sid) :=
          List.mem_filter.mpr ⟨hr, by simpa using hps⟩
        refine Or.inr ?_
        by_cases hside : side = Side.red
        · rw [if_pos hside]
          exact List.mem_append.mpr (Or.inl hf)
        · rw [if_neg hside]
          exact hf
  · intro p s hps0
    by_cases hp : p = sid
    · subst hp
      rw [lookupA_setA_self] at hps0
      obtain rfl : side = s := by injection hps0
      refine ⟨fun hsb => ?_, fun hsr => ?_⟩
      · subst hsb
        simp
      · subst hsr
        simp
    · rw [lookupA_setA_ne _ _ _ _ hp] at hps0
      have hold := h.2.2 p s hps0
      refine ⟨fun hsb => ?_, fun hsr => ?_⟩
      · have hb := hold.1 hsb
        have hf : p ∈ ds.bluePlayers.filter (fun i => i != sid) :=
          List.mem_filter.mpr ⟨hb, by simpa using hp⟩
        by_cases hside : side = Side.blue
        · rw [if_pos hside]
          exact List.mem_append.mpr (Or.inl hf)
        · rw [if_neg hside]
          exact hf
      · have hr := hold.2 hsr
        have hf : p ∈ ds.redPlayers.filter (fun i => i != sid) :=
          List.mem_filter.mpr ⟨hr, by simpa using hp⟩
        by_cases hside : side = Side.red
        · rw [if_pos hside]
          exact List.mem_append.mpr (Or.inl hf)
        · rw [if_neg hside]
          exact hf

theorem selectSideApply_PickedInv (tid cap : Nat) (ds : DraftState) (sid : Nat)
    (side : Side) (nm : String) (mmr : Nat) (h : PickedInv ds) :
    PickedInv (selectSideApply tid cap ds sid side nm mmr).1 := by
  unfold selectSideApply
  by_cases hcb : side = Side.blue ∧ cap ≤ ds.bluePlayers.length
  · rw [if_pos hcb]
    exact h
  rw [if_neg hcb]
  by_cases hcr : side = Side.red ∧ cap ≤ ds.redPlayers.length
  · rw [if_pos hcr]
    exact h
  rw [if_neg hcr]
  dsimp only
  have key := selectSide_core_PickedInv ds sid side nm mmr h
  set x := updateLeaders _ with hx
  split
  · exact key
  · exact key

theorem banApply_PickedInv (tid : Nat) (ds : DraftState) (sid : Nat) (pid : String)
    (h : PickedInv ds) : PickedInv (banApply tid ds sid pid).1 := by
  by_cases hok : BanOk ds sid
  · obtain ⟨_, _, h3, h4, h5, h6, _⟩ := (banApply_spec tid ds sid pid).2 hok
    exact PickedInv_of_fields _ ds h6 h4 h5 h3 h
  · rw [((banApply_spec tid ds sid pid).1 hok).1]
    exact h

theorem pickApply_PickedInv (tid : Nat) (ds : DraftState) (sid : Nat) (pid : String)
    (ct : Side) (h : PickedInv ds) : PickedInv (pickApply tid ds sid pid ct).1 := by
  by_cases hok : PickOk ds sid
  · rw [((pickApply_spec tid ds sid pid ct).2 hok).1]
    unfold PickedInv
    dsimp only
    refine ⟨?_, ?_, ?_⟩
    · refine List.Nodup.append h.1 (by simp) ?_
      intro a ha hb
      simp only [List.mem_singleton] at hb
      subst hb
      exact hok.2.2 ha
    · intro p hp
      rcases List.mem_append.mp hp with hp1 | hp1
      · exact h.2.1 p hp1
      · simp only [List.mem_singleton] at hp1
        subst hp1
        have hside := h.2.2 p ds.currentTurn hok.2.1
        cases hct : ds.currentTurn with
        | blue =>
          rw [hct] at hside
          exact Or.inl (hside.1 rfl)
        | red =>
          rw [hct] at hside
          exact Or.inr (hside.2 rfl)
    · exact h.2.2
  · rw [((pickApply_spec tid ds sid pid ct).1 hok).1]
    exact h

theorem roomApply_PickedInv (tid : Nat) (ds : DraftState) (sid : Nat) (code : String)
    (h : PickedInv ds) : PickedInv (roomApply tid ds sid code).1 := by
  by_cases hok : ds.blueLeader = some sid ∧ ds.turnPhase = Phase.complete
  · rw [show (roomApply tid ds sid code).1 = { ds with roomCode := some code } from by
      rw [(roomApply_spec tid ds sid code).2 hok.1 hok.2]]
    exact PickedInv_of_fields _ ds rfl rfl rfl rfl h
  · rw [((roomApply_spec tid ds sid code).1 hok).1]
    exact h

/-! ### Propagation of invariants through whole runs -/

theorem joinStep_draftStates (st : ServerState) (sid tid : Nat) :
    (joinStep st sid tid).1.draftStates = st.draftStates := by
  unfold joinStep
  cases hft : findTeam st.teams tid with
  | none => rfl
  | some t =>
    dsimp only
    by_cases h1 : sid ∈ t.members
    · rw [if_pos h1]
    · rw [if_neg h1]
      by_cases h2 : totalCapacity t.mode ≤ t.members.length
      · rw [if_pos h2]
      · rw [if_neg h2]

theorem disconnectTeams_AllP (P : DraftState → Prop)
    (hclean : ∀ sid ds, P ds → P (cleanupDraft sid ds).1) (sid : Nat) :
    ∀ (ts : List Team) (dss : List (Nat × DraftState)),
      (∀ p ∈ dss, P p.2) → ∀ p ∈ (disconnectTeams sid ts dss).dss, P p.2 := by
  intro ts
  induction ts with
  | nil =>
    intro dss h p hp
    exact h p hp
  | cons t ts ih =>
    intro dss h p hp
    unfold disconnectTeams at hp
    by_cases hm : t.members.contains sid = true
    · rw [if_pos hm] at hp
      dsimp only at hp
      cases hds : lookupA dss t.id with
      | some ds0 =>
        rw [hds] at hp
        dsimp only at hp
        have hP0 : P (cleanupDraft sid ds0).1 :=
          hclean sid ds0 (h _ (mem_of_lookupA _ _ _ hds))
        have hbase : ∀ q ∈ setA dss t.id (cleanupDraft sid ds0).1, P q.2 := by
          intro q hq
          rcases mem_setA _ _ _ _ hq with h1 | h1
          · rw [h1]
            exact hP0
          · exact h q h1
        by_cases hemp : (t.members.erase sid).isEmpty = true
        · rw [if_pos hemp] at hp
          dsimp only at hp
          refine ih _ ?_ p hp
          intro q hq
          exact hbase q (mem_eraseA _ _ _ hq)
        · rw [if_neg hemp] at hp
          dsimp only at hp
          exact ih _ hbase p hp
      | none =>
        rw [hds] at hp
        dsimp only at hp
        by_cases hemp : (t.members.erase sid).isEmpty = true
        · rw [if_pos hemp] at hp
          dsimp only at hp
          refine ih _ ?_ p hp
          intro q hq
          exact h q (mem_eraseA _ _ _ hq)
        · rw [if_neg hemp] at hp
          dsimp only at hp
          exact ih _ h p hp
    · rw [if_neg hm] at hp
      dsimp only at hp
      exact ih _ h p hp

theorem stepOther_AllP (P : DraftState → Prop)
    (hinit : ∀ mode, P (initDraft mode))
    (hsel : ∀ tid cap ds sid side nm mmr, P ds →
      P (selectSideApply tid cap ds sid side nm mmr).1)
    (hban : ∀ tid ds sid pid, P ds → P (banApply tid ds sid pid).1)
    (hpick : ∀ tid ds sid pid ct, P ds → P (pickApply tid ds sid pid ct).1)
    (hroom : ∀ tid ds sid code, P ds → P (roomApply tid ds sid code).1)
    (st : ServerState) (e : Event) (he : isDisconnect e = false)
    (h : AllP P st) : AllP P (stepState st e) := by
  cases e with
  | createTeam sid tid nm mode =>
    intro p hp
    unfold stepState stepM at hp
    dsimp only at hp
    rcases mem_setA _ _ _ _ hp with h1 | h1
    · rw [h1]
      exact hinit mode
    · exact h p h1
  | joinTeam sid tid =>
    intro p hp
    unfold stepState stepM at hp
    dsimp only at hp
    rw [joinStep_draftStates] at hp
    exact h p hp
  | selectSide sid tid side nm mmr =>
    intro p hp
    unfold stepState stepM at hp
    dsimp only at hp
    cases hds : lookupA st.draftStates tid with
    | none =>
      rw [hds] at hp
      dsimp only at hp
      exact h p hp
    | some ds0 =>
      rw [hds] at hp
      cases hft : findTeam st.teams tid with
      | none =>
        rw [hft] at hp
        dsimp only at hp
        exact h p hp
      | some team =>
        rw [hft] at hp
        dsimp only at hp
        rcases mem_setA _ _ _ _ hp with h1 | h1
        · rw [h1]
          exact hsel _ _ _ _ _ _ _ (h _ (mem_of_lookupA _ _ _ hds))
        · exact h p h1
  | draftBan sid tid pid =>
    intro p hp
    unfold stepState stepM at hp
    dsimp only at hp
    cases hds : lookupA st.draftStates tid with
    | none =>
      rw [hds] at hp
      exact h p hp
    | some ds0 =>
      rw [hds] at hp
      dsimp only at hp
      rcases mem_setA _ _ _ _ hp with h1 | h1
      · rw [h1]
        exact hban _ _ _ _ (h _ (mem_of_lookupA _ _ _ hds))
      · exact h p h1
  | draftPick sid tid pid ct =>
    intro p hp
    unfold stepState stepM at hp
    dsimp only at hp
    cases hds : lookupA st.draftStates tid with
    | none =>
      rw [hds] at hp
      exact h p hp
    | some ds0 =>
      rw [hds] at hp
      dsimp only at hp
      rcases mem_setA _ _ _ _ hp with h1 | h1
      · rw [h1]
        exact hpick _ _ _ _ _ (h _ (mem_of_lookupA _ _ _ hds))
      · exact h p h1
  | setRoomCode sid tid code =>
    intro p hp
    unfold stepState stepM at hp
    dsimp only at hp
    cases hds : lookupA st.draftStates tid with
    | none =>
      rw [hds] at hp
      exact h p hp
    | some ds0 =>
      rw [hds] at hp
      dsimp only at hp
      rcases mem_setA _ _ _ _ hp with h1 | h1
      · rw [h1]
        exact hroom _ _ _ _ (h _ (mem_of_lookupA _ _ _ hds))
      · exact h p h1
  | disconnect sid => simp [isDisconnect] at he

theorem step_AllP (P : DraftState → Prop)
    (hinit : ∀ mode, P (initDraft mode))
    (hsel : ∀ tid cap ds sid side nm mmr, P ds →
      P (selectSideApply tid cap ds sid side nm mmr).1)
    (hban : ∀ tid ds sid pid, P ds → P (banApply tid ds sid pid).1)
    (hpick : ∀ tid ds sid pid ct, P ds → P (pickApply tid ds sid pid ct).1)
    (hroom : ∀ tid ds sid code, P ds → P (roomApply tid ds sid code).1)
    (hclean : ∀ sid ds, P ds → P (cleanupDraft sid ds).1)
    (st : ServerState) (e : Event) (h : AllP P st) : AllP P (stepState st e) := by
  by_cases hd : isDisconnect e = true
  · cases e with
    | disconnect sid =>
      intro p hp
      unfold stepState stepM disconnectStep at hp
      dsimp only at hp
      exact disconnectTeams_AllP P hclean sid st.teams st.draftStates h p hp
    | createTeam a b c d => simp [isDisconnect] at hd
    | joinTeam a b => simp [isDisconnect] at hd
    | selectSide a b c d f => simp [isDisconnect] at hd
    | draftBan a b c => simp [isDisconnect] at hd
    | draftPick a b c d => simp [isDisconnect] at hd
    | setRoomCode a b c => simp [isDisconnect] at hd
  · exact stepOther_AllP P hinit hsel hban hpick hroom st e (by simpa using hd) h

theorem foldl_AllP (P : DraftState → Prop)
    (hstep : ∀ st e, AllP P st → AllP P (stepState st e)) :
    ∀ (events : List Event) (st : ServerState), AllP P st →
      AllP P (events.foldl stepState st) := by
  intro events
  induction events with
  | nil =>
    intro st h
    exact h
  | cons e es ih =>
    intro st h
    exact ih _ (hstep st e h)

theorem foldl_AllP_noDisc (P : DraftState → Prop)
    (hstep : ∀ st e, isDisconnect e = false → AllP P st → AllP P (stepState st e)) :
    ∀ (events : List Event) (st : ServerState), noDisconnect events = true →
      AllP P st → AllP P (events.foldl stepState st) := by
  intro events
  induction events with
  | nil =>
    intro st _ h
    exact h
  | cons e es ih =>
    intro st hnd h
    simp only [noDisconnect, List.all_cons, Bool.and_eq_true, Bool.not_eq_true'] at hnd
    refine ih _ ?_ (hstep st e hnd.1 h)
    simp only [noDisconnect]
    exact hnd.2

theorem AllP_initState (P : DraftState → Prop) : AllP P initState := by
  intro p hp
  exact absurd hp (List.not_mem_nil p)

theorem run_DInv (events : List Event) : AllP DInv (runEvents events) := by
  refine foldl_AllP DInv ?_ events initState (AllP_initState DInv)
  intro st e h
  refine step_AllP DInv ?_ ?_ ?_ ?_ ?_ ?_ st e h
  · intro mode
    exact ⟨fun hne => absurd rfl hne, fun hne => absurd rfl hne⟩
  · intro tid cap ds sid side nm mmr hds
    exact selectSideApply_DInv tid cap ds sid side nm mmr hds
  · intro tid ds sid pid hds
    exact banApply_DInv tid ds sid pid hds
  · intro tid ds sid pid ct hds
    exact pickApply_DInv tid ds sid pid ct hds
  · intro tid ds sid code hds
    exact roomApply_DInv tid ds sid code hds
  · intro sid ds hds
    exact cleanupDraft_DInv sid ds hds

theorem run_BanBound (events : List Event) : AllP BanBound (runEvents events) := by
  refine foldl_AllP BanBound ?_ events initState (AllP_initState BanBound)
  intro st e h
  refine step_AllP BanBound ?_ ?_ ?_ ?_ ?_ ?_ st e h
  · intro mode
    exact ⟨by simp [initDraft], by simp [initDraft]⟩
  · intro tid cap ds sid side nm mmr hds
    exact selectSideApply_BanBound tid cap ds sid side nm mmr hds
  · intro tid ds sid pid hds
    exact banApply_BanBound tid ds sid pid hds
  · intro tid ds sid pid ct hds
    exact pickApply_BanBound tid ds sid pid ct hds
  · intro tid ds sid code hds
    exact roomApply_BanBound tid ds sid code hds
  · intro sid ds hds
    exact cleanupDraft_BanBound sid ds hds

theorem runNoDisc_PickedInv (events : List Event) (hnd : noDisconnect events = true) :
    AllP PickedInv (runEvents events) := by
  refine foldl_AllP_noDisc PickedInv ?_ events initState hnd (AllP_initState PickedInv)
  intro st e he h
  refine stepOther_AllP PickedInv ?_ ?_ ?_ ?_ ?_ st e he h
  · intro mode
    refine ⟨List.nodup_nil, ?_, ?_⟩
    · intro p hp
      exact absurd hp (List.not_mem_nil p)
    · intro p s hps
      simp [initDraft, lookupA] at hps
  · intro tid cap ds sid side nm mmr hds
    exact selectSideApply_PickedInv tid cap ds sid side nm mmr hds
  · intro tid ds sid pid hds
    exact banApply_PickedInv tid ds sid pid hds
  · intro tid ds sid pid ct hds
    exact pickApply_PickedInv tid ds sid pid ct hds
  · intro tid ds sid code hds
    exact roomApply_PickedInv tid ds sid code hds

/-! ### Frame lemmas used for monotonicity and phase tracking -/

theorem banApply_picked (tid : Nat) (ds : DraftState) (sid : Nat) (pid : String) :
    (banApply tid ds sid pid).1.playersPicked = ds.playersPicked := by
  by_cases hok : BanOk ds sid
  · exact ((banApply_spec tid ds sid pid).2 hok).2.2.2.2.2.1
  · rw [((banApply_spec tid ds sid pid).1 hok).1]

theorem banApply_phase (tid : Nat) (ds : DraftState) (sid : Nat) (pid : String) :
    (banApply tid ds sid pid).1.turnPhase = ds.turnPhase ∨
    (banApply tid ds sid pid).1.turnPhase = Phase.pick := by
  by_cases hok : BanOk ds sid
  · have hp := ((banApply_spec tid ds sid pid).2 hok).2.2.2.2.2.2.2.2.2.2.2.2.2
    by_cases hcond : 3 ≤ sideBanCount ds ds.currentTurn + 1 ∧
        3 ≤ sideBanCount ds (flipSide ds.currentTurn)
    · right
      rw [hp, if_pos hcond]
    · left
      rw [hp, if_neg hcond, hok.1]
  · left
    rw [((banApply_spec tid ds sid pid).1 hok).1]

theorem pickApply_picked_mono (tid : Nat) (ds : DraftState) (sid : Nat) (pid : String)
    (ct : Side) :
    ds.playersPicked.length ≤ (pickApply tid ds sid pid ct).1.playersPicked.length := by
  by_cases hok : PickOk ds sid
  · rw [((pickApply_spec tid ds sid pid ct).2 hok).1]
    simp
  · rw [((pickApply_spec tid ds sid pid ct).1 hok).1]

theorem roomApply_frame (tid : Nat) (ds : DraftState) (sid : Nat) (code : String) :
    (roomApply tid ds sid code).1.playersPicked = ds.playersPicked ∧
    (roomApply tid ds sid code).1.turnPhase = ds.turnPhase := by
  by_cases hok : ds.blueLeader = some sid ∧ ds.turnPhase = Phase.complete
  · rw [show (roomApply tid ds sid code).1 = { ds with roomCode := some code } from by
      rw [(roomApply_spec tid ds sid code).2 hok.1 hok.2]]
    exact ⟨rfl, rfl⟩
  · rw [((roomApply_spec tid ds sid code).1 hok).1]
    exact ⟨rfl, rfl⟩

theorem disconnectTeams_lookupA (sid : Nat) :
    ∀ (ts : List Team) (dss : List (Nat × DraftState)),
      ((dss.map Prod.fst).Nodup) →
      ∀ tid ds1, lookupA (disconnectTeams sid ts dss).dss tid = some ds1 →
      ∃ ds0, lookupA dss tid = some ds0 ∧
        ds1.playersPicked = ds0.playersPicked ∧ ds1.turnPhase = ds0.turnPhase ∧
        ds1.blueBanCount = ds0.blueBanCount ∧ ds1.redBanCount = ds0.redBanCount := by
  intro ts
  induction ts with
  | nil =>
    intro dss _ tid ds1 h
    exact ⟨ds1, h, rfl, rfl, rfl, rfl⟩
  | cons t ts ih =>
    intro dss hkeys tid ds1 h
    unfold disconnectTeams at h
    by_cases hm : t.members.contains sid = true
    · rw [if_pos hm] at h
      dsimp only at h
      cases hds : lookupA dss t.id with
      | some ds0 =>
        rw [hds] at h
        dsimp only at h
        have hkeys1 : ((setA dss t.id (cleanupDraft sid ds0).1).map Prod.fst).Nodup :=
          keys_nodup_setA _ _ _ hkeys
        by_cases hemp : (t.members.erase sid).isEmpty = true
        · rw [if_pos hemp] at h
          dsimp only at h
          obtain ⟨dsm, hm1, he1, he2, he3, he4⟩ :=
            ih _ (keys_nodup_eraseA _ _ hkeys1) tid ds1 h
          by_cases ht : tid = t.id
          · subst ht
            rw [lookupA_eraseA_self _ _ hkeys1] at hm1
            cases hm1
          · rw [lookupA_eraseA_ne _ _ _ ht, lookupA_setA_ne _ _ _ _ ht] at hm1
            exact ⟨dsm, hm1, he1, he2, he3, he4⟩
        · rw [if_neg hemp] at h
          dsimp only at h
          obtain ⟨dsm, hm1, he1, he2, he3, he4⟩ := ih _ hkeys1 tid ds1 h
          by_cases ht : tid = t.id
          · subst ht
            rw [lookupA_setA_self] at hm1
            obtain rfl : (cleanupDraft sid ds0).1 = dsm := by injection hm1
            obtain ⟨_, _, _, hf4, _, hf6, hf7, hf8, _⟩ := cleanupDraft_fields sid ds0
            exact ⟨ds0, hds, by rw [he1, hf6], by rw [he2, hf4],
              by rw [he3, hf7], by rw [he4, hf8]⟩
          · rw [lookupA_setA_ne _ _ _ _ ht] at hm1
            exact ⟨dsm, hm1, he1, he2, he3, he4⟩
      | none =>
        rw [hds] at h
        dsimp only at h
        by_cases hemp : (t.members.erase sid).isEmpty = true
        · rw [if_pos hemp] at h
          dsimp only at h
          obtain ⟨dsm, hm1, he1, he2, he3, he4⟩ :=
            ih _ (keys_nodup_eraseA _ _ hkeys) tid ds1 h
          by_cases ht : tid = t.id
          · subst ht
            rw [lookupA_eraseA_self _ _ hkeys] at hm1
            cases hm1
          · rw [lookupA_eraseA_ne _ _ _ ht] at hm1
            exact ⟨dsm, hm1, he1, he2, he3, he4⟩
        · rw [if_neg hemp] at h
          dsimp only at h
          exact ih _ hkeys tid ds1 h
    · rw [if_neg hm] at h
      dsimp only at h
      exact ih _ hkeys tid ds1 h

theorem step_lookup_frame (st : ServerState) (e : Event) (tid : Nat)
    (ds ds1 : DraftState)
    (hkeys : (st.draftStates.map Prod.fst).Nodup)
    (hfresh : ∀ sid2 tid2 nm md, e = Event.createTeam sid2 tid2 nm md →
      lookupA st.draftStates tid2 = none)
    (hds : lookupA st.draftStates tid = some ds)
    (hds1 : lookupA (stepState st e).draftStates tid = some ds1) :
    ds.playersPicked.length ≤ ds1.playersPicked.length ∧
    (ds1.turnPhase = ds.turnPhase ∨ ds1.turnPhase = Phase.waiting ∨
      ds1.turnPhase = Phase.ban ∨ ds1.turnPhase = Phase.pick ∨
      ∃ sid2 tid2 pid ct, e = Event.draftPick sid2 tid2 pid ct) := by
  cases e with
  | createTeam sid2 tid2 nm md =>
    unfold stepState stepM at hds1
    dsimp only at hds1
    have hne : tid ≠ tid2 := by
      intro he
      rw [he, hfresh sid2 tid2 nm md rfl] at hds
      cases hds
    rw [lookupA_setA_ne _ _ _ _ hne, hds] at hds1
    obtain rfl : ds = ds1 := by injection hds1
    exact ⟨le_refl _, Or.inl rfl⟩
  | joinTeam sid2 tid2 =>
    unfold stepState stepM at hds1
    dsimp only at hds1
    rw [joinStep_draftStates, hds] at hds1
    obtain rfl : ds = ds1 := by injection hds1
    exact ⟨le_refl _, Or.inl rfl⟩
  | selectSide sid2 tid2 side nm mmr =>
    unfold stepState stepM at hds1
    dsimp only at hds1
    cases hL : lookupA st.draftStates tid2 with
    | none =>
      rw [hL] at hds1
      dsimp only at hds1
      rw [hds] at hds1
      obtain rfl : ds = ds1 := by injection hds1
      exact ⟨le_refl _, Or.inl rfl⟩
    | some ds0 =>
      rw [hL] at hds1
      cases hft : findTeam st.teams tid2 with
      | none =>
        rw [hft] at hds1
        dsimp only at hds1
        rw [hds] at hds1
        obtain rfl : ds = ds1 := by injection hds1
        exact ⟨le_refl _, Or.inl rfl⟩
      | some team =>
        rw [hft] at hds1
        dsimp only at hds1
        by_cases ht : tid = tid2
        · subst ht
          rw [lookupA_setA_self] at hds1
          obtain rfl :
              (selectSideApply tid (minPlayersFor team.mode) ds0 sid2 side nm mmr).1 = ds1 := by
            injection hds1
          obtain rfl : ds = ds0 := by
            rw [hds] at hL
            injection hL
          obtain ⟨_, _, hpk, hph, _⟩ :=
            selectSideApply_frame tid (minPlayersFor team.mode) ds sid2 side nm mmr
          refine ⟨by rw [hpk], ?_⟩
          rcases hph with hph | hph
          · exact Or.inl hph
          · exact Or.inr (Or.inr (Or.inl hph))
        · rw [lookupA_setA_ne _ _ _ _ ht, hds] at hds1
          obtain rfl : ds = ds1 := by injection hds1
          exact ⟨le_refl _, Or.inl rfl⟩
  | draftBan sid2 tid2 pid =>
    unfold stepState stepM at hds1
    dsimp only at hds1
    cases hL : lookupA st.draftStates tid2 with
    | none =>
      rw [hL] at hds1
      rw [hds] at hds1
      obtain rfl : ds = ds1 := by injection hds1
      exact ⟨le_refl _, Or.inl rfl⟩
    | some ds0 =>
      rw [hL] at hds1
      dsimp only at hds1
      by_cases ht : tid = tid2
      · subst ht
        rw [lookupA_setA_self] at hds1
        obtain rfl : (banApply tid ds0 sid2 pid).1 = ds1 := by injection hds1
        obtain rfl : ds = ds0 := by
          rw [hds] at hL
          injection hL
        refine ⟨by rw [banApply_picked], ?_⟩
        rcases banApply_phase tid ds sid2 pid with hph | hph
        · exact Or.inl hph
        · exact Or.inr (Or.inr (Or.inr (Or.inl hph)))
      · rw [lookupA_setA_ne _ _ _ _ ht, hds] at hds1
        obtain rfl : ds = ds1 := by injection hds1
        exact ⟨le_refl _, Or.inl rfl⟩
  | draftPick sid2 tid2 pid ct =>
    unfold stepState stepM at hds1
    dsimp only at hds1
    cases hL : lookupA st.draftStates tid2 with
    | none =>
      rw [hL] at hds1
      rw [hds] at hds1
      obtain rfl : ds = ds1 := by injection hds1
      exact ⟨le_refl _, Or.inl rfl⟩
    | some ds0 =>
      rw [hL] at hds1
      dsimp only at hds1
      by_cases ht : tid = tid2
      · subst ht
        rw [lookupA_setA_self] at hds1
        obtain rfl : (pickApply tid ds0 sid2 pid ct).1 = ds1 := by injection hds1
        obtain rfl : ds = ds0 := by
          rw [hds] at hL
          injection hL
        exact ⟨pickApply_picked_mono tid ds sid2 pid ct,
          Or.inr (Or.inr (Or.inr (Or.inr ⟨sid2, tid, pid, ct, rfl⟩)))⟩
      · rw [lookupA_setA_ne _ _ _ _ ht, hds] at hds1
        obtain rfl : ds = ds1 := by injection hds1
        exact ⟨le_refl _, Or.inl rfl⟩
  | setRoomCode sid2 tid2 code =>
    unfold stepState stepM at hds1
    dsimp only at hds1
    cases hL : lookupA st.draftStates tid2 with
    | none =>
      rw [hL] at hds1
      rw [hds] at hds1
      obtain rfl : ds = ds1 := by injection hds1
      exact ⟨le_refl _, Or.inl rfl⟩
    | some ds0 =>
      rw [hL] at hds1
      dsimp only at hds1
      by_cases ht : tid = tid2
      · subst ht
        rw [lookupA_setA_self] at hds1
        obtain rfl : (roomApply tid ds0 sid2 code).1 = ds1 := by injection hds1
        obtain rfl : ds = ds0 := by
          rw [hds] at hL
          injection hL
        obtain ⟨hpk, hph⟩ := roomApply_frame tid ds sid2 code
        exact ⟨by rw [hpk], Or.inl hph⟩
      · rw [lookupA_setA_ne _ _ _ _ ht, hds] at hds1
        obtain rfl : ds = ds1 := by injection hds1
        exact ⟨le_refl _, Or.inl rfl⟩
  | disconnect sid2 =>
    unfold stepState stepM disconnectStep at hds1
    dsimp only at hds1
    obtain ⟨ds0, hm1, he1, he2, _, _⟩ :=
      disconnectTeams_lookupA sid2 st.teams st.draftStates hkeys tid ds1 hds1
    rw [hds] at hm1
    obtain rfl : ds = ds0 := by injection hm1
    exact ⟨by rw [he1], Or.inl he2⟩

/-! ### Claim C1 -/

/-- Claim C1 (counterexample): the original claim says the recorded leader is
null iff the side's player list is empty after every `selectSide` call.  In
the reachable state of `c1Events` — one player picks blue then switches to
red — the blue player list is empty while the blue leader still records
socket 1, because `updateLeaders` only recomputes a side's leader when that
side is non-empty. -/
theorem claim_C1_counterexample :
    ((lookupA (runEvents c1Events).draftStates 0).map
      (fun ds => (ds.bluePlayers, ds.blueLeader))) = some ([], some 1) := by
  rfl

/-- Claim C1 (amended): in every reachable server state, every draft state
satisfies: a side whose player list is non-empty has as recorded leader the
first-inserted member of that list attaining the maximum rank score.  (The
null-iff-empty part of the original claim fails: a side emptied by a side
switch keeps its stale leader.) -/
theorem claim_C1_leader_invariant (events : List Event) (tid : Nat)
    (ds : DraftState)
    (h : lookupA (runEvents events).draftStates tid = some ds) :
    (ds.bluePlayers ≠ [] →
      ds.blueLeader = firstMax (mmrScore ds.playerMMRs) ds.bluePlayers) ∧
    (ds.redPlayers ≠ [] →
      ds.redLeader = firstMax (mmrScore ds.playerMMRs) ds.redPlayers) := by
  have hinv := run_DInv events _ (mem_of_lookupA _ _ _ h)
  exact ⟨fun hne => (hinv.1 hne).2, fun hne => (hinv.2 hne).2⟩

/-- Witness for claim C1's theorem: the reachable state of `c1wEvents`
(one blue player with score 7, one red player with score 9). -/
theorem claim_C1_witness :
    (some 1 : Option Nat) =
      firstMax (mmrScore [(1, ⟨"a", 7⟩), (2, ⟨"b", 9⟩)]) [1] ∧
    (some 2 : Option Nat) =
      firstMax (mmrScore [(1, ⟨"a", 7⟩), (2, ⟨"b", 9⟩)]) [2] := by
  have h := claim_C1_leader_invariant c1wEvents 0 c1wDs (by rfl)
  exact ⟨h.1 (by simp [c1wDs]), h.2 (by simp [c1wDs])⟩

/-! ### Claim C2 -/

/-- Claim C2: a ban is accepted exactly when the phase is ban, the caller's
recorded side equals the current turn, the caller is that side's leader,
and that side's ban count is below 3; on acceptance the ban is appended and
the acting side's count incremented, the turn flips exactly when the acting
side's count reaches 3 (and is reset to blue when both counts reach 3, in
which case the phase becomes pick, else it stays ban).  Reachable ban
counts never exceed 3, which justifies reading the conditions with
equality. -/
theorem claim_C2_ban_rules :
    (∀ (events : List Event) (tid : Nat) (ds : DraftState),
      lookupA (runEvents events).draftStates tid = some ds →
      ds.blueBanCount ≤ 3 ∧ ds.redBanCount ≤ 3) ∧
    (∀ (tid : Nat) (ds : DraftState) (sid : Nat) (pid : String),
      ((banApply tid ds sid pid).1.bans.length = ds.bans.length + 1 ↔ BanOk ds sid) ∧
      (¬ BanOk ds sid → (banApply tid ds sid pid).1 = ds) ∧
      (BanOk ds sid → sideBanCount ds (flipSide ds.currentTurn) ≤ 3 →
        (banApply tid ds sid pid).1.bans = ds.bans ++ [⟨pid, sid, ds.currentTurn⟩] ∧
        sideBanCount (banApply tid ds sid pid).1 ds.currentTurn =
          sideBanCount ds ds.currentTurn + 1 ∧
        sideBanCount (banApply tid ds sid pid).1 (flipSide ds.currentTurn) =
          sideBanCount ds (flipSide ds.currentTurn) ∧
        (banApply tid ds sid pid).1.currentTurn =
          (if sideBanCount ds ds.currentTurn + 1 = 3 ∧
              sideBanCount ds (flipSide ds.currentTurn) = 3 then Side.blue
           else if sideBanCount ds ds.currentTurn + 1 = 3 then flipSide ds.currentTurn
           else ds.currentTurn) ∧
        (banApply tid ds sid pid).1.turnPhase =
          (if sideBanCount ds ds.currentTurn + 1 = 3 ∧
              sideBanCount ds (flipSide ds.currentTurn) = 3 then Phase.pick
           else Phase.ban))) := by
  constructor
  · intro events tid ds h
    exact run_BanBound events _ (mem_of_lookupA _ _ _ h)
  · intro tid ds sid pid
    refine ⟨?_, fun hno => ((banApply_spec tid ds sid pid).1 hno).1, ?_⟩
    · constructor
      · intro hlen
        by_cases hok : BanOk ds sid
        · exact hok
        · rw [((banApply_spec tid ds sid pid).1 hok).1] at hlen
          omega
      · intro hok
        have hb := ((banApply_spec tid ds sid pid).2 hok).2.1
        rw [hb]
        simp
    · intro hok hother
      obtain ⟨_, hb, _, _, _, _, _, _, _, _, hc1, hc2, hturn, hphase⟩ :=
        (banApply_spec tid ds sid pid).2 hok
      have hlt := hok.2.2.2
      have e1 : (3 ≤ sideBanCount ds ds.currentTurn + 1) ↔
          (sideBanCount ds ds.currentTurn + 1 = 3) := by omega
      have e2 : (3 ≤ sideBanCount ds (flipSide ds.currentTurn)) ↔
          (sideBanCount ds (flipSide ds.currentTurn) = 3) := by omega
      refine ⟨hb, hc1, hc2, ?_, ?_⟩
      · rw [hturn]
        simp only [e1, e2]
      · rw [hphase]
        simp only [e1, e2]

/-- Witness for claim C2's theorem: in `c2wDs` (ban phase, blue turn, blue
leader 1 with no bans used) socket 1's ban is accepted and appended. -/
theorem claim_C2_witness :
    BanOk c2wDs 1 ∧
    (banApply 0 c2wDs 1 "x").1.bans = c2wDs.bans ++ [⟨"x", 1, Side.blue⟩] := by
  have h := (claim_C2_ban_rules.2 0 c2wDs 1 "x").2.2 (by decide) (by decide)
  exact ⟨by decide, h.1⟩

/-! ### Claim C3 -/

/-- Claim C3: a pick is accepted exactly when the phase is pick, the
caller's recorded side equals the current turn, and the caller has not
picked yet; every accepted pick appends one entry to the picks, adds the
caller to the picked set, increments the turn number by one, and flips the
turn to the opposite side (on every single pick). -/
theorem claim_C3_pick_rules (tid : Nat) (ds : DraftState) (sid : Nat)
    (pid : String) (ct : Side) :
    ((pickApply tid ds sid pid ct).1.picks.length = ds.picks.length + 1 ↔
      PickOk ds sid) ∧
    (¬ PickOk ds sid → (pickApply tid ds sid pid ct).1 = ds) ∧
    (PickOk ds sid →
      (pickApply tid ds sid pid ct).1.picks = ds.picks ++ [⟨pid, ct, sid⟩] ∧
      (pickApply tid ds sid pid ct).1.playersPicked = ds.playersPicked ++ [sid] ∧
      (pickApply tid ds sid pid ct).1.turnNumber = ds.turnNumber + 1 ∧
      (pickApply tid ds sid pid ct).1.currentTurn = flipSide ds.currentTurn) := by
  refine ⟨?_, fun hno => ((pickApply_spec tid ds sid pid ct).1 hno).1, ?_⟩
  · constructor
    · intro hlen
      by_cases hok : PickOk ds sid
      · exact hok
      · rw [((pickApply_spec tid ds sid pid ct).1 hok).1] at hlen
        omega
    · intro hok
      rw [((pickApply_spec tid ds sid pid ct).2 hok).1]
      simp
  · intro hok
    rw [((pickApply_spec tid ds sid pid ct).2 hok).1]
    exact ⟨rfl, rfl, rfl, rfl⟩

/-- Witness for claim C3's theorem: in `c3wDs` (pick phase, blue turn,
socket 1 not yet picked) socket 1's pick is accepted with all four
effects. -/
theorem claim_C3_witness :
    PickOk c3wDs 1 ∧
    (pickApply 0 c3wDs 1 "m" Side.blue).1.playersPicked =
      c3wDs.playersPicked ++ [1] ∧
    (pickApply 0 c3wDs 1 "m" Side.blue).1.currentTurn = Side.red := by
  have h := (claim_C3_pick_rules 0 c3wDs 1 "m" Side.blue).2.2 (by decide)
  exact ⟨by decide, h.2.1, h.2.2.2⟩

/-! ### Claim C4 -/

/-- Claim C4 (counterexample): the original claim bounds the picked set by
the sum of the side-list sizes in every reachable execution.  After the
full 5v5 draft of `c4Events` completes and one player who already picked
disconnects, the reachable state has 10 picked players against side lists
of sizes 4 and 5. -/
theorem claim_C4_counterexample :
    ((lookupA (runEvents c4Events).draftStates 0).map
      (fun ds => (ds.playersPicked.length, ds.bluePlayers.length,
        ds.redPlayers.length))) = some (10, 4, 5) ∧ 4 + 5 < 10 := by
  exact ⟨by rfl, by omega⟩

/-- Claim C4 (amended): (1) across any single event with fresh team ids and
duplicate-free draft-state keys, the picked set never shrinks; (2) in
executions without disconnects its size never exceeds the sum of the two
side-list sizes; (3) in such executions a pick moves the phase to
complete exactly when it makes the picked-set size reach that sum; and (4)
no event other than a pick can move the phase to complete.  (The бound and
the exactness clause fail once disconnects occur, as the counterexample
shows.) -/
theorem claim_C4_picked_rules :
    (∀ (st : ServerState) (e : Event) (tid : Nat) (ds ds1 : DraftState),
      ((st.draftStates.map Prod.fst).Nodup) →
      (∀ sid2 tid2 nm md, e = Event.createTeam sid2 tid2 nm md →
        lookupA st.draftStates tid2 = none) →
      lookupA st.draftStates tid = some ds →
      lookupA (stepState st e).draftStates tid = some ds1 →
      ds.playersPicked.length ≤ ds1.playersPicked.length) ∧
    (∀ (events : List Event) (tid : Nat) (ds : DraftState),
      noDisconnect events = true →
      lookupA (runEvents events).draftStates tid = some ds →
      ds.playersPicked.length ≤ ds.bluePlayers.length + ds.redPlayers.length) ∧
    (∀ (events : List Event) (tid sid : Nat) (pid : String) (ct : Side)
        (ds : DraftState),
      noDisconnect events = true →
      lookupA (runEvents events).draftStates tid = some ds →
      ds.turnPhase ≠ Phase.complete →
      ((pickApply tid ds sid pid ct).1.turnPhase = Phase.complete ↔
        ((pickApply tid ds sid pid ct).1.playersPicked.length =
          ds.playersPicked.length + 1 ∧
         (pickApply tid ds sid pid ct).1.playersPicked.length =
          (pickApply tid ds sid pid ct).1.bluePlayers.length +
            (pickApply tid ds sid pid ct).1.redPlayers.length))) ∧
    (∀ (st : ServerState) (e : Event) (tid : Nat) (ds ds1 : DraftState),
      ((st.draftStates.map Prod.fst).Nodup) →
      (∀ sid2 tid2 nm md, e = Event.createTeam sid2 tid2 nm md →
        lookupA st.draftStates tid2 = none) →
      (∀ sid2 tid2 pid ct, e ≠ Event.draftPick sid2 tid2 pid ct) →
      lookupA st.draftStates tid = some ds →
      lookupA (stepState st e).draftStates tid = some ds1 →
      ds.turnPhase ≠ Phase.complete → ds1.turnPhase ≠ Phase.complete) := by
  have hbound : ∀ (ds : DraftState), PickedInv ds →
      ds.playersPicked.length ≤ ds.bluePlayers.length + ds.redPlayers.length := by
    intro ds hinv
    have hsub : ds.playersPicked ⊆ ds.bluePlayers ++ ds.redPlayers := by
      intro p hp
      exact List.mem_append.mpr (hinv.2.1 p hp)
    have := (List.subperm_of_subset hinv.1 hsub).length_le
    rwa [List.length_append] at this
  refine ⟨?_, ?_, ?_, ?_⟩
  · intro st e tid ds ds1 hkeys hfresh hds hds1
    exact (step_lookup_frame st e tid ds ds1 hkeys hfresh hds hds1).1
  · intro events tid ds hnd h
    exact hbound ds (runNoDisc_PickedInv events hnd _ (mem_of_lookupA _ _ _ h))
  · intro events tid sid pid ct ds hnd h hnc
    have hinv := runNoDisc_PickedInv events hnd _ (mem_of_lookupA _ _ _ h)
    by_cases hok : PickOk ds sid
    · have hrec := ((pickApply_spec tid ds sid pid ct).2 hok).1
      rw [hrec]
      dsimp only
      have hlen : (ds.playersPicked ++ [sid]).length = ds.playersPicked.length + 1 := by
        simp
      have hple : (ds.playersPicked ++ [sid]).length ≤
          ds.bluePlayers.length + ds.redPlayers.length := by
        have hnodup : (ds.playersPicked ++ [sid]).Nodup := by
          refine List.Nodup.append hinv.1 (by simp) ?_
          intro a ha hb
          simp only [List.mem_singleton] at hb
          subst hb
          exact hok.2.2 ha
        have hsub : (ds.playersPicked ++ [sid]) ⊆ ds.bluePlayers ++ ds.redPlayers := by
          intro p hp
          rcases List.mem_append.mp hp with hp1 | hp1
          · exact List.mem_append.mpr (hinv.2.1 p hp1)
          · simp only [List.mem_singleton] at hp1
            subst hp1
            have hside := hinv.2.2 p ds.currentTurn hok.2.1
            cases hct : ds.currentTurn with
            | blue =>
              rw [hct] at hside
              exact List.mem_append.mpr (Or.inl (hside.1 rfl))
            | red =>
              rw [hct] at hside
              exact List.mem_append.mpr (Or.inr (hside.2 rfl))
        have := (List.subperm_of_subset hnodup hsub).length_le
        rwa [List.length_append ds.bluePlayers] at this
      rw [hlen] at hple
      by_cases hc : ds.bluePlayers.length + ds.redPlayers.length ≤
          ds.playersPicked.length + 1
      · rw [if_pos hc]
        constructor
        · intro _
          rw [hlen]
          exact ⟨rfl, by omega⟩
        · intro _
          rfl
      · rw [if_neg hc]
        constructor
        · intro hfalse
          cases hfalse
        · intro hcon
          obtain ⟨_, h2⟩ := hcon
          rw [hlen] at h2
          exact absurd h2 (by omega)
    · rw [((pickApply_spec tid ds sid pid ct).1 hok).1]
      constructor
      · intro hfalse
        exact absurd hfalse hnc
      · intro hcon
        obtain ⟨h1, _⟩ := hcon
        exact absurd h1 (by omega)
  · intro st e tid ds ds1 hkeys hfresh hnp hds hds1 hnc
    rcases (step_lookup_frame st e tid ds ds1 hkeys hfresh hds hds1).2 with
      hph | hph | hph | hph | ⟨sid2, tid2, pid, ct, hph⟩
    · rw [hph]
      exact hnc
    · rw [hph]
      intro hc
      cases hc
    · rw [hph]
      intro hc
      cases hc
    · rw [hph]
      intro hc
      cases hc
    · exact absurd hph (hnp sid2 tid2 pid ct)

/-- Witness for claim C4's theorem: the bound holds in the small disconnect-free
trace `c1wEvents`. -/
theorem claim_C4_witness :
    c1wDs.playersPicked.length ≤ c1wDs.bluePlayers.length + c1wDs.redPlayers.length := by
  exact claim_C4_picked_rules.2.1 c1wEvents 0 c1wDs (by rfl) (by rfl)

/-! ### Claim C5 -/

theorem selectSideApply_quorum (tid cap : Nat) (ds : DraftState) (sid : Nat)
    (side : Side) (nm : String) (mmr : Nat)
    (hcapb : side = Side.blue → ds.bluePlayers.length < cap)
    (hcapr : side = Side.red → ds.redPlayers.length < cap)
    (hwait : ds.turnPhase = Phase.waiting)
    (hq1 : ds.minPlayersPerTeam ≤
      (selectSideApply tid cap ds sid side nm mmr).1.bluePlayers.length)
    (hq2 : ds.minPlayersPerTeam ≤
      (selectSideApply tid cap ds sid side nm mmr).1.redPlayers.length) :
    (selectSideApply tid cap ds sid side nm mmr).1.turnPhase = Phase.ban ∧
    (selectSideApply tid cap ds sid side nm mmr).1.currentTurn = Side.blue := by
  have hnb : ¬ (side = Side.blue ∧ cap ≤ ds.bluePlayers.length) := by
    rintro ⟨hs, hle⟩
    exact absurd hle (not_le.mpr (hcapb hs))
  have hnr : ¬ (side = Side.red ∧ cap ≤ ds.redPlayers.length) := by
    rintro ⟨hs, hle⟩
    exact absurd hle (not_le.mpr (hcapr hs))
  unfold selectSideApply at hq1 hq2 ⊢
  rw [if_neg hnb, if_neg hnr] at hq1 hq2 ⊢
  dsimp only at hq1 hq2 ⊢
  set x := updateLeaders _ with hx
  have hmin : x.minPlayersPerTeam = ds.minPlayersPerTeam := by
    rw [hx, updateLeaders_eq]
  have hph : x.turnPhase = ds.turnPhase := by
    rw [hx, updateLeaders_eq]
  by_cases hC : (x.minPlayersPerTeam ≤ x.bluePlayers.length ∧
      x.minPlayersPerTeam ≤ x.redPlayers.length) ∧ x.turnPhase = Phase.waiting
  · rw [if_pos hC]
    exact ⟨rfl, rfl⟩
  · rw [if_neg hC] at hq1 hq2
    exfalso
    apply hC
    refine ⟨⟨?_, ?_⟩, ?_⟩
    · rw [hmin]
      exact hq1
    · rw [hmin]
      exact hq2
    · rw [hph, hwait]

set_option maxHeartbeats 1000000

/-- Claim C5 (counterexample): the original claim says the quorum-completing
membership change also sets the owning Team's status to drafting.  In
`c5All` the tenth side selection completes the quorum and does move the
draft to phase ban with turn blue, but the Team record is bit-for-bit the
one from before the step: the code's Team has no status field at all, so
nothing is marked drafting. -/
theorem claim_C5_counterexample :
    (runEvents c5All).teams = [⟨0, "t", "x", 1, 0, [1]⟩] ∧
    (runEvents c5Pre).teams = [⟨0, "t", "x", 1, 0, [1]⟩] ∧
    ((lookupA (runEvents c5All).draftStates 0).map
      (fun ds => (ds.turnPhase, ds.currentTurn))) = some (Phase.ban, Side.blue) := by
  exact ⟨by rfl, by rfl, by rfl⟩

/-- Claim C5 (amended): when a side selection is accepted (the chosen side is
under its capacity) while the draft phase is waiting, and it leaves both
side lists at or above the per-side quorum, the draft transitions in that
same step to phase ban with turn blue; the step leaves the team list
unchanged (the Team record has no status field, so the original claim's
"status is set to drafting" has no counterpart in the code). -/
theorem claim_C5_quorum_transition (st : ServerState) (sid tid : Nat)
    (side : Side) (nm : String) (mmr : Nat) (ds : DraftState) (t : Team)
    (ds1 : DraftState)
    (hds : lookupA st.draftStates tid = some ds)
    (ht : findTeam st.teams tid = some t)
    (hcapb : side = Side.blue → ds.bluePlayers.length < minPlayersFor t.mode)
    (hcapr : side = Side.red → ds.redPlayers.length < minPlayersFor t.mode)
    (hds1 : lookupA (stepState st (Event.selectSide sid tid side nm mmr)).draftStates
      tid = some ds1)
    (hwait : ds.turnPhase = Phase.waiting)
    (hq1 : ds.minPlayersPerTeam ≤ ds1.bluePlayers.length)
    (hq2 : ds.minPlayersPerTeam ≤ ds1.redPlayers.length) :
    (stepState st (Event.selectSide sid tid side nm mmr)).teams = st.teams ∧
    ds1.turnPhase = Phase.ban ∧ ds1.currentTurn = Side.blue := by
  unfold stepState stepM at hds1 ⊢
  dsimp only at hds1 ⊢
  rw [hds, ht] at hds1 ⊢
  dsimp only at hds1 ⊢
  rw [lookupA_setA_self] at hds1
  obtain rfl :
      (selectSideApply tid (minPlayersFor t.mode) ds sid side nm mmr).1 = ds1 := by
    injection hds1
  exact ⟨rfl, selectSideApply_quorum tid (minPlayersFor t.mode) ds sid side nm mmr
    hcapb hcapr hwait hq1 hq2⟩

/-- Witness for claim C5's theorem: in `c5wSt` (quorum one per side, one red
player) the blue selection of socket 2 completes the quorum. -/
theorem claim_C5_witness :
    (stepState c5wSt (Event.selectSide 2 0 Side.blue "b" 9)).teams = c5wSt.teams ∧
    c5wDsAfter.turnPhase = Phase.ban ∧ c5wDsAfter.currentTurn = Side.blue := by
  exact claim_C5_quorum_transition c5wSt 2 0 Side.blue "b" 9 c5wDs
    ⟨0, "t", "5v5", 1, 0, [1, 2]⟩ c5wDsAfter (by rfl) (by rfl) (by decide)
    (by decide) (by rfl) (by rfl) (by decide) (by decide)

/-! ### Claim C6 -/

/-- Claim C6 (counterexample): the original claim says every rejected
mutating operation sends a failure reply with a reason to the initiating
caller.  A ban addressed to a team id with no draft state is rejected
without any reply at all: the handler returns with only a console log. -/
theorem claim_C6_counterexample :
    stepM initState (Event.draftBan 1 0 "p") = (initState, []) := by
  rfl

/-- Claim C6 (amended): every rejected ban, pick, join, or set-room-code
leaves the whole server state (its own team's and every other team's
state) unchanged and emits no team-wide or lobby-wide message; a rejected
join, set-room-code, or a ban or pick whose draft state exists sends
exactly one failure reply to the initiating caller, while a ban or pick
addressed to a missing draft state sends no reply at all. -/
theorem claim_C6_rejection_rules :
    (∀ (st : ServerState) (sid tid : Nat) (pid : String),
      lookupA st.draftStates tid = none →
      stepM st (Event.draftBan sid tid pid) = (st, [])) ∧
    (∀ (st : ServerState) (sid tid : Nat) (pid : String) (ds : DraftState),
      lookupA st.draftStates tid = some ds → ¬ BanOk ds sid →
      (stepM st (Event.draftBan sid tid pid)).1 = st ∧
      (stepM st (Event.draftBan sid tid pid)).2.map Msg.target =
        [Target.toCaller sid]) ∧
    (∀ (st : ServerState) (sid tid : Nat) (pid : String) (ct : Side),
      lookupA st.draftStates tid = none →
      stepM st (Event.draftPick sid tid pid ct) = (st, [])) ∧
    (∀ (st : ServerState) (sid tid : Nat) (pid : String) (ct : Side)
        (ds : DraftState),
      lookupA st.draftStates tid = some ds → ¬ PickOk ds sid →
      (stepM st (Event.draftPick sid tid pid ct)).1 = st ∧
      (stepM st (Event.draftPick sid tid pid ct)).2.map Msg.target =
        [Target.toCaller sid]) ∧
    (∀ (st : ServerState) (sid tid : Nat), ¬ JoinOk st sid tid →
      (stepM st (Event.joinTeam sid tid)).1 = st ∧
      (stepM st (Event.joinTeam sid tid)).2.map Msg.target =
        [Target.toCaller sid]) ∧
    (∀ (st : ServerState) (sid tid : Nat) (code : String), ¬ RoomOk st sid tid →
      (stepM st (Event.setRoomCode sid tid code)).1 = st ∧
      (stepM st (Event.setRoomCode sid tid code)).2.map Msg.target =
        [Target.toCaller sid]) := by
  refine ⟨?_, ?_, ?_, ?_, ?_, ?_⟩
  · intro st sid tid pid h
    unfold stepM
    dsimp only
    rw [h]
  · intro st sid tid pid ds h hno
    unfold stepM
    dsimp only
    rw [h]
    dsimp only
    obtain ⟨hst, hmsg⟩ := (banApply_spec tid ds sid pid).1 hno
    rw [hst, setA_eq_of_lookupA _ _ _ h]
    exact ⟨rfl, hmsg⟩
  · intro st sid tid pid ct h
    unfold stepM
    dsimp only
    rw [h]
  · intro st sid tid pid ct ds h hno
    unfold stepM
    dsimp only
    rw [h]
    dsimp only
    obtain ⟨hst, hmsg⟩ := (pickApply_spec tid ds sid pid ct).1 hno
    rw [hst, setA_eq_of_lookupA _ _ _ h]
    exact ⟨rfl, hmsg⟩
  · intro st sid tid hno
    unfold stepM
    dsimp only
    unfold joinStep
    cases hft : findTeam st.teams tid with
    | none => exact ⟨rfl, rfl⟩
    | some t =>
      dsimp only
      by_cases hmem : sid ∈ t.members
      · rw [if_pos hmem]
        exact ⟨rfl, rfl⟩
      · rw [if_neg hmem]
        by_cases hcap : totalCapacity t.mode ≤ t.members.length
        · rw [if_pos hcap]
          exact ⟨rfl, rfl⟩
        · exact absurd (⟨t, hft, hmem, not_le.mp hcap⟩ : JoinOk st sid tid) hno
  · intro st sid tid code hno
    unfold stepM
    dsimp only
    cases hds : lookupA st.draftStates tid with
    | none => exact ⟨rfl, rfl⟩
    | some ds =>
      dsimp only
      have hno1 : ¬ (ds.blueLeader = some sid ∧ ds.turnPhase = Phase.complete) := by
        rintro ⟨h1, h2⟩
        exact hno ⟨ds, hds, h1, h2⟩
      obtain ⟨hst, hmsg⟩ := (roomApply_spec tid ds sid code).1 hno1
      rw [hst, setA_eq_of_lookupA _ _ _ hds]
      exact ⟨rfl, hmsg⟩

/-- Witness for claim C6's theorem: a join addressed to a team id that does
not exist is rejected, leaves the state unchanged, and replies only to
the caller. -/
theorem claim_C6_witness :
    (stepM initState (Event.joinTeam 1 0)).1 = initState ∧
    (stepM initState (Event.joinTeam 1 0)).2.map Msg.target = [Target.toCaller 1] := by
  refine claim_C6_rejection_rules.2.2.2.2.1 initState 1 0 ?_
  rintro ⟨t, ht, -, -⟩
  rw [show findTeam initState.teams 0 = (none : Option Team) from rfl] at ht
  cases ht

/-! ### Claim C7 -/

theorem findTeam_id : ∀ (ts : List Team) (tid : Nat) (t : Team),
    findTeam ts tid = some t → t.id = tid := by
  intro ts
  induction ts with
  | nil => intro tid t h; cases h
  | cons t0 ts ih =>
    intro tid t h
    unfold findTeam at h
    by_cases h0 : t0.id = tid
    · rw [if_pos h0] at h
      obtain rfl : t0 = t := by injection h
      exact h0
    · rw [if_neg h0] at h
      exact ih tid t h

theorem findTeam_replaceTeam : ∀ (ts : List Team) (tid : Nat) (t t1 : Team),
    findTeam ts tid = some t → t1.id = tid →
    findTeam (replaceTeam ts tid t1) tid = some t1 := by
  intro ts
  induction ts with
  | nil => intro tid t t1 h; cases h
  | cons t0 ts ih =>
    intro tid t t1 h hid
    unfold findTeam at h
    unfold replaceTeam
    by_cases h0 : t0.id = tid
    · rw [if_pos h0]
      unfold findTeam
      rw [if_pos hid]
    · rw [if_neg h0] at h
      rw [if_neg h0]
      unfold findTeam
      rw [if_neg h0]
      exact ih tid t t1 h hid

/-- Claim C7: joining fails with reason not-found when no team with the
given id exists, with already-member when the caller is already listed,
and with the capacity reason when the member count is at or above the
mode's total capacity; a repeated join by the same session leaves the
server state (in particular the member list) unchanged. -/
theorem claim_C7_join_rules :
    (∀ (st : ServerState) (sid tid : Nat), findTeam st.teams tid = none →
      stepM st (Event.joinTeam sid tid) =
        (st, [⟨Target.toCaller sid, "team-join-failed", "not-found"⟩])) ∧
    (∀ (st : ServerState) (sid tid : Nat) (t : Team),
      findTeam st.teams tid = some t → sid ∈ t.members →
      stepM st (Event.joinTeam sid tid) =
        (st, [⟨Target.toCaller sid, "team-join-failed", "already-member"⟩])) ∧
    (∀ (st : ServerState) (sid tid : Nat) (t : Team),
      findTeam st.teams tid = some t → sid ∉ t.members →
      totalCapacity t.mode ≤ t.members.length →
      stepM st (Event.joinTeam sid tid) =
        (st, [⟨Target.toCaller sid, "team-join-failed",
          "Room is full (both teams are at capacity)"⟩])) ∧
    (∀ (st : ServerState) (sid tid : Nat),
      stepState (stepState st (Event.joinTeam sid tid)) (Event.joinTeam sid tid) =
        stepState st (Event.joinTeam sid tid)) := by
  refine ⟨?_, ?_, ?_, ?_⟩
  · intro st sid tid h
    unfold stepM
    dsimp only
    unfold joinStep
    rw [h]
  · intro st sid tid t h hmem
    unfold stepM
    dsimp only
    unfold joinStep
    rw [h]
    dsimp only
    rw [if_pos hmem]
  · intro st sid tid t h hmem hcap
    unfold stepM
    dsimp only
    unfold joinStep
    rw [h]
    dsimp only
    rw [if_neg hmem, if_pos hcap]
  · intro st sid tid
    cases hft : findTeam st.teams tid with
    | none =>
      have h1 : stepState st (Event.joinTeam sid tid) = st := by
        unfold stepState stepM
        dsimp only
        unfold joinStep
        rw [hft]
      rw [h1]
      exact h1
    | some t =>
      by_cases hmem : sid ∈ t.members
      · have h1 : stepState st (Event.joinTeam sid tid) = st := by
          unfold stepState stepM
          dsimp only
          unfold joinStep
          rw [hft]
          dsimp only
          rw [if_pos hmem]
        rw [h1]
        exact h1
      · by_cases hcap : totalCapacity t.mode ≤ t.members.length
        · have h1 : stepState st (Event.joinTeam sid tid) = st := by
            unfold stepState stepM
            dsimp only
            unfold joinStep
            rw [hft]
            dsimp only
            rw [if_neg hmem, if_pos hcap]
          rw [h1]
          exact h1
        · have h1 : stepState st (Event.joinTeam sid tid) =
              { st with teams := replaceTeam st.teams tid { t with members := t.members ++ [sid] } } := by
            unfold stepState stepM
            dsimp only
            unfold joinStep
            rw [hft]
            dsimp only
            rw [if_neg hmem, if_neg hcap]
          have hft2 : findTeam (replaceTeam st.teams tid
              ({ t with members := t.members ++ [sid] })) tid =
              some ({ t with members := t.members ++ [sid] }) :=
            findTeam_replaceTeam st.teams tid t _ hft (findTeam_id st.teams tid t hft)
          have hmem2 : sid ∈ ({ t with members := t.members ++ [sid] } : Team).members := by
            simp
          rw [h1]
          unfold stepState stepM
          dsimp only
          unfold joinStep
          rw [hft2]
          dsimp only
          rw [if_pos hmem2]

/-- Witness for claim C7's theorem: joining a non-existent team from the
empty server state fails with not-found and changes nothing. -/
theorem claim_C7_witness :
    stepM initState (Event.joinTeam 1 0) =
      (initState, [⟨Target.toCaller 1, "team-join-failed", "not-found"⟩]) := by
  exact claim_C7_join_rules.1 initState 1 0 (by rfl)

/-! ### Claim C8 -/

/-- Claim C8: a room code is accepted exactly when the caller is the blue
leader and the phase is complete (the team broadcast happens exactly on
acceptance); an accepted call stores the code, and a repeated accepted
call overwrites it (last write wins) and broadcasts again; a rejected call
changes nothing and replies only to the caller. -/
theorem claim_C8_room_code (tid : Nat) (ds : DraftState) (sid : Nat)
    (c1 c2 : String) :
    (((roomApply tid ds sid c1).2 = [⟨Target.toTeam tid, "room-code-set", c1⟩]) ↔
      (ds.blueLeader = some sid ∧ ds.turnPhase = Phase.complete)) ∧
    (ds.blueLeader = some sid → ds.turnPhase = Phase.complete →
      (roomApply tid ds sid c1).1 = { ds with roomCode := some c1 } ∧
      (roomApply tid (roomApply tid ds sid c1).1 sid c2).1.roomCode = some c2 ∧
      (roomApply tid (roomApply tid ds sid c1).1 sid c2).2 =
        [⟨Target.toTeam tid, "room-code-set", c2⟩]) ∧
    (¬ (ds.blueLeader = some sid ∧ ds.turnPhase = Phase.complete) →
      (roomApply tid ds sid c1).1 = ds ∧
      (roomApply tid ds sid c1).2.map Msg.target = [Target.toCaller sid]) := by
  refine ⟨?_, ?_, ?_⟩
  · constructor
    · intro hmsg
      by_cases hok : ds.blueLeader = some sid ∧ ds.turnPhase = Phase.complete
      · exact hok
      · obtain ⟨-, hm⟩ := (roomApply_spec tid ds sid c1).1 hok
        rw [hmsg] at hm
        simp at hm
    · intro hok
      rw [(roomApply_spec tid ds sid c1).2 hok.1 hok.2]
  · intro h1 h2
    have hrec := (roomApply_spec tid ds sid c1).2 h1 h2
    have h1b : ((roomApply tid ds sid c1).1).blueLeader = some sid := by
      rw [hrec]
      exact h1
    have h2b : ((roomApply tid ds sid c1).1).turnPhase = Phase.complete := by
      rw [hrec]
      exact h2
    have hrec2 := (roomApply_spec tid (roomApply tid ds sid c1).1 sid c2).2 h1b h2b
    refine ⟨by rw [hrec], ?_, ?_⟩
    · rw [show (roomApply tid (roomApply tid ds sid c1).1 sid c2).1 =
        { (roomApply tid ds sid c1).1 with roomCode := some c2 } from by rw [hrec2]]
    · rw [show (roomApply tid (roomApply tid ds sid c1).1 sid c2).2 =
        [⟨Target.toTeam tid, "room-code-set", c2⟩] from by rw [hrec2]]
  · intro hno
    exact (roomApply_spec tid ds sid c1).1 hno

/-- Witness for claim C8's theorem: in `c8wDs` (draft complete, blue leader
1) two successive room codes are accepted and the second wins. -/
theorem claim_C8_witness :
    (roomApply 0 c8wDs 1 "AB").1 = { c8wDs with roomCode := some "AB" } ∧
    (roomApply 0 (roomApply 0 c8wDs 1 "AB").1 1 "CD").1.roomCode = some "CD" ∧
    (roomApply 0 (roomApply 0 c8wDs 1 "AB").1 1 "CD").2 =
      [⟨Target.toTeam 0, "room-code-set", "CD"⟩] := by
  exact (claim_C8_room_code 0 c8wDs 1 "AB" "CD").2.1 (by rfl) (by rfl)

/-! ### Claim C9 -/

theorem not_mem_filter_ne (sid : Nat) (l : List Nat) :
    sid ∉ l.filter (fun i => i != sid) := by
  intro h
  have h1 := List.of_mem_filter h
  simp at h1

theorem disconnectTeams_frame (sid : Nat) :
    ∀ (ts : List Team) (dss : List (Nat × DraftState)) (tid : Nat),
      tid ∉ ts.map Team.id →
      lookupA (disconnectTeams sid ts dss).dss tid = lookupA dss tid := by
  intro ts
  induction ts with
  | nil => intro dss tid _; rfl
  | cons t ts ih =>
    intro dss tid htid
    rw [List.map_cons, List.mem_cons, not_or] at htid
    obtain ⟨hne, htl⟩ := htid
    unfold disconnectTeams
    by_cases hm : t.members.contains sid = true
    · rw [if_pos hm]
      dsimp only
      cases hds : lookupA dss t.id with
      | some ds0 =>
        dsimp only
        by_cases hemp : (t.members.erase sid).isEmpty = true
        · rw [if_pos hemp]
          dsimp only
          rw [ih _ tid htl, lookupA_eraseA_ne _ _ _ hne, lookupA_setA_ne _ _ _ _ hne]
        · rw [if_neg hemp]
          dsimp only
          rw [ih _ tid htl, lookupA_setA_ne _ _ _ _ hne]
      | none =>
        dsimp only
        by_cases hemp : (t.members.erase sid).isEmpty = true
        · rw [if_pos hemp]
          dsimp only
          rw [ih _ tid htl, lookupA_eraseA_ne _ _ _ hne]
        · rw [if_neg hemp]
          dsimp only
          rw [ih _ tid htl]
    · rw [if_neg hm]
      dsimp only
      rw [ih _ tid htl]

theorem disconnectTeams_members (sid : Nat) :
    ∀ (ts : List Team) (dss : List (Nat × DraftState)),
      (∀ t ∈ ts, t.members.Nodup) →
      ∀ t1 ∈ (disconnectTeams sid ts dss).teams, sid ∉ t1.members := by
  intro ts
  induction ts with
  | nil => intro dss _ t1 h1; cases h1
  | cons t ts ih =>
    intro dss hnod t1 h1
    have hnodt : t.members.Nodup := hnod t (List.mem_cons_self t ts)
    have hnodtl : ∀ t2 ∈ ts, t2.members.Nodup :=
      fun t2 h2 => hnod t2 (List.mem_cons_of_mem t h2)
    unfold disconnectTeams at h1
    by_cases hm : t.members.contains sid = true
    · rw [if_pos hm] at h1
      dsimp only at h1
      by_cases hemp : (t.members.erase sid).isEmpty = true
      · rw [if_pos hemp] at h1
        dsimp only at h1
        exact ih _ hnodtl t1 h1
      · rw [if_neg hemp] at h1
        dsimp only at h1
        rcases List.mem_cons.mp h1 with h1 | h1
        · subst h1
          intro hc
          rw [List.Nodup.mem_erase_iff hnodt] at hc
          exact hc.1 rfl
        · exact ih _ hnodtl t1 h1
    · rw [if_neg hm] at h1
      dsimp only at h1
      rcases List.mem_cons.mp h1 with h1 | h1
      · subst h1
        intro hc
        exact hm (List.elem_eq_true_of_mem hc)
      · exact ih _ hnodtl t1 h1

theorem disconnectTeams_cleans (sid : Nat) :
    ∀ (ts : List Team) (dss : List (Nat × DraftState)),
      ((dss.map Prod.fst).Nodup) → ((ts.map Team.id).Nodup) →
      ∀ t0 ∈ ts, sid ∈ t0.members →
      ∀ ds1, lookupA (disconnectTeams sid ts dss).dss t0.id = some ds1 →
      sid ∉ ds1.bluePlayers ∧ sid ∉ ds1.redPlayers := by
  intro ts
  induction ts with
  | nil => intro dss _ _ t0 h0; cases h0
  | cons t ts ih =>
    intro dss hkeys hids t0 ht0 hm0 ds1 h
    rw [List.map_cons, List.nodup_cons] at hids
    obtain ⟨hnotin, hids1⟩ := hids
    rcases List.mem_cons.mp ht0 with rfl | ht0
    · have hm : t0.members.contains sid = true := List.elem_eq_true_of_mem hm0
      unfold disconnectTeams at h
      rw [if_pos hm] at h
      dsimp only at h
      cases hds : lookupA dss t0.id with
      | some ds0 =>
        rw [hds] at h
        dsimp only at h
        by_cases hemp : (t0.members.erase sid).isEmpty = true
        · rw [if_pos hemp] at h
          dsimp only at h
          rw [disconnectTeams_frame sid ts _ t0.id hnotin,
            lookupA_eraseA_self _ _ (keys_nodup_setA _ _ _ hkeys)] at h
          cases h
        · rw [if_neg hemp] at h
          dsimp only at h
          rw [disconnectTeams_frame sid ts _ t0.id hnotin, lookupA_setA_self] at h
          obtain rfl : (cleanupDraft sid ds0).1 = ds1 := by injection h
          constructor
          · exact not_mem_filter_ne sid ds0.bluePlayers
          · exact not_mem_filter_ne sid ds0.redPlayers
      | none =>
        rw [hds] at h
        dsimp only at h
        by_cases hemp : (t0.members.erase sid).isEmpty = true
        · rw [if_pos hemp] at h
          dsimp only at h
          rw [disconnectTeams_frame sid ts _ t0.id hnotin,
            lookupA_eraseA_self _ _ hkeys] at h
          cases h
        · rw [if_neg hemp] at h
          dsimp only at h
          rw [disconnectTeams_frame sid ts _ t0.id hnotin, hds] at h
          cases h
    · unfold disconnectTeams at h
      by_cases hm : t.members.contains sid = true
      · rw [if_pos hm] at h
        dsimp only at h
        cases hds : lookupA dss t.id with
        | some ds0 =>
          rw [hds] at h
          dsimp only at h
          by_cases hemp : (t.members.erase sid).isEmpty = true
          · rw [if_pos hemp] at h
            dsimp only at h
            exact ih _ (keys_nodup_eraseA _ _ (keys_nodup_setA _ _ _ hkeys)) hids1
              t0 ht0 hm0 ds1 h
          · rw [if_neg hemp] at h
            dsimp only at h
            exact ih _ (keys_nodup_setA _ _ _ hkeys) hids1 t0 ht0 hm0 ds1 h
        | none =>
          rw [hds] at h
          dsimp only at h
          by_cases hemp : (t.members.erase sid).isEmpty = true
          · rw [if_pos hemp] at h
            dsimp only at h
            exact ih _ (keys_nodup_eraseA _ _ hkeys) hids1 t0 ht0 hm0 ds1 h
          · rw [if_neg hemp] at h
            dsimp only at h
            exact ih _ hkeys hids1 t0 ht0 hm0 ds1 h
      · rw [if_neg hm] at h
        dsimp only at h
        exact ih _ hkeys hids1 t0 ht0 hm0 ds1 h

theorem disconnectTeams_msg (sid : Nat) :
    ∀ (ts : List Team) (dss : List (Nat × DraftState)),
      ((ts.map Team.id).Nodup) →
      ∀ t0 ∈ ts, sid ∈ t0.members →
      ∀ ds, lookupA dss t0.id = some ds →
      sid ∈ ds.bluePlayers ∨ sid ∈ ds.redPlayers →
      (⟨Target.toTeam t0.id, "player-disconnected", ""⟩ : Msg) ∈
        (disconnectTeams sid ts dss).msgs := by
  intro ts
  induction ts with
  | nil => intro dss _ t0 h0; cases h0
  | cons t ts ih =>
    intro dss hids t0 ht0 hm0 ds hds hside
    rw [List.map_cons, List.nodup_cons] at hids
    obtain ⟨hnotin, hids1⟩ := hids
    rcases List.mem_cons.mp ht0 with rfl | ht0
    · have hm : t0.members.contains sid = true := List.elem_eq_true_of_mem hm0
      have hcond : ((cleanupDraft sid ds).2.1 || (cleanupDraft sid ds).2.2) = true := by
        have hb : (cleanupDraft sid ds).2.1 = ds.bluePlayers.contains sid := rfl
        have hr : (cleanupDraft sid ds).2.2 = ds.redPlayers.contains sid := rfl
        rw [hb, hr, Bool.or_eq_true]
        rcases hside with hs | hs
        · exact Or.inl (List.elem_eq_true_of_mem hs)
        · exact Or.inr (List.elem_eq_true_of_mem hs)
      unfold disconnectTeams
      rw [if_pos hm]
      dsimp only
      rw [hds]
      dsimp only
      by_cases hemp : (t0.members.erase sid).isEmpty = true
      · rw [if_pos hemp]
        dsimp only
        rw [if_pos hcond]
        exact List.mem_append_left _ (List.mem_singleton_self _)
      · rw [if_neg hemp]
        dsimp only
        rw [if_pos hcond]
        exact List.mem_append_left _ (List.mem_singleton_self _)
    · have hne : t0.id ≠ t.id := by
        intro he
        exact hnotin (he ▸ List.mem_map_of_mem Team.id ht0)
      unfold disconnectTeams
      by_cases hm : t.members.contains sid = true
      · rw [if_pos hm]
        dsimp only
        cases hds2 : lookupA dss t.id with
        | some ds0 =>
          dsimp only
          by_cases hemp : (t.members.erase sid).isEmpty = true
          · rw [if_pos hemp]
            dsimp only
            refine List.mem_append_right _ (ih _ hids1 t0 ht0 hm0 ds ?_ hside)
            rw [lookupA_eraseA_ne _ _ _ hne, lookupA_setA_ne _ _ _ _ hne]
            exact hds
          · rw [if_neg hemp]
            dsimp only
            refine List.mem_append_right _ (ih _ hids1 t0 ht0 hm0 ds ?_ hside)
            rw [lookupA_setA_ne _ _ _ _ hne]
            exact hds
        | none =>
          dsimp only
          by_cases hemp : (t.members.erase sid).isEmpty = true
          · rw [if_pos hemp]
            dsimp only
            refine List.mem_append_right _ (ih _ hids1 t0 ht0 hm0 ds ?_ hside)
            rw [lookupA_eraseA_ne _ _ _ hne]
            exact hds
          · rw [if_neg hemp]
            dsimp only
            exact List.mem_append_right _ (ih _ hids1 t0 ht0 hm0 ds hds hside)
      · rw [if_neg hm]
        dsimp only
        exact ih _ hids1 t0 ht0 hm0 ds hds hside

/-- Claim C9 (counterexample): the original claim says a disconnecting
player's removal waits for a 60-second reconnection grace period.  The
code has no timer at all: the single `disconnect` event itself already
removes the member, empties their side-list slot, and broadcasts
`player-disconnected` to the team room. -/
theorem claim_C9_counterexample :
    (stepM (runEvents c9Pre) (Event.disconnect 2)).2 =
      [⟨Target.toTeam 0, "player-disconnected", ""⟩,
       ⟨Target.toLobby, "teams-sync", ""⟩] ∧
    ((stepM (runEvents c9Pre) (Event.disconnect 2)).1.teams.map Team.members) =
      [[1]] ∧
    ((lookupA (stepM (runEvents c9Pre) (Event.disconnect 2)).1.draftStates 0).map
      DraftState.bluePlayers) = some [] := by
  exact ⟨by rfl, by rfl, by rfl⟩

/-- Claim C9 (amended): handling a `disconnect` immediately (with no grace
period or reconnection window, which the code does not have) removes the
socket from every team's member list, scrubs it from both side lists of
every affected team's surviving draft state, and broadcasts
`player-disconnected` to the room of every membership team whose draft
state listed the socket on a side. -/
theorem claim_C9_disconnect_immediate (st : ServerState) (sid : Nat)
    (hnod : ∀ t ∈ st.teams, t.members.Nodup)
    (hids : (st.teams.map Team.id).Nodup)
    (hkeys : (st.draftStates.map Prod.fst).Nodup) :
    (∀ t1 ∈ (stepM st (Event.disconnect sid)).1.teams, sid ∉ t1.members) ∧
    (∀ t0 ∈ st.teams, sid ∈ t0.members →
      ∀ ds1, lookupA (stepM st (Event.disconnect sid)).1.draftStates t0.id =
        some ds1 → sid ∉ ds1.bluePlayers ∧ sid ∉ ds1.redPlayers) ∧
    (∀ t0 ∈ st.teams, sid ∈ t0.members →
      ∀ ds, lookupA st.draftStates t0.id = some ds →
      sid ∈ ds.bluePlayers ∨ sid ∈ ds.redPlayers →
      (⟨Target.toTeam t0.id, "player-disconnected", ""⟩ : Msg) ∈
        (stepM st (Event.disconnect sid)).2) := by
  have h1 : (stepM st (Event.disconnect sid)).1.teams =
      (disconnectTeams sid st.teams st.draftStates).teams := rfl
  have h2 : (stepM st (Event.disconnect sid)).1.draftStates =
      (disconnectTeams sid st.teams st.draftStates).dss := rfl
  have h3 : (stepM st (Event.disconnect sid)).2 =
      (disconnectTeams sid st.teams st.draftStates).msgs ++
      (if (disconnectTeams sid st.teams st.draftStates).changed then
        [⟨Target.toLobby, "teams-sync", ""⟩] else []) := rfl
  refine ⟨?_, ?_, ?_⟩
  · rw [h1]
    exact disconnectTeams_members sid st.teams st.draftStates hnod
  · intro t0 ht0 hm0 ds1 hl
    rw [h2] at hl
    exact disconnectTeams_cleans sid st.teams st.draftStates hkeys hids t0 ht0 hm0 ds1 hl
  · intro t0 ht0 hm0 ds hds hside
    rw [h3]
    exact List.mem_append_left _
      (disconnectTeams_msg sid st.teams st.draftStates hids t0 ht0 hm0 ds hds hside)

/-- Witness for claim C9's theorem: socket 1 disconnecting from the
two-member team of `c9wSt`, where it sits on the red side. -/
theorem claim_C9_witness :
    (∀ t1 ∈ (stepM c9wSt (Event.disconnect 1)).1.teams, 1 ∉ t1.members) ∧
    (∀ t0 ∈ c9wSt.teams, 1 ∈ t0.members →
      ∀ ds1, lookupA (stepM c9wSt (Event.disconnect 1)).1.draftStates t0.id =
        some ds1 → 1 ∉ ds1.bluePlayers ∧ 1 ∉ ds1.redPlayers) ∧
    (∀ t0 ∈ c9wSt.teams, 1 ∈ t0.members →
      ∀ ds, lookupA c9wSt.draftStates t0.id = some ds →
      1 ∈ ds.bluePlayers ∨ 1 ∈ ds.redPlayers →
      (⟨Target.toTeam t0.id, "player-disconnected", ""⟩ : Msg) ∈
        (stepM c9wSt (Event.disconnect 1)).2) := by
  exact claim_C9_disconnect_immediate c9wSt 1 (by decide) (by decide) (by decide)

/-! ### Claim C10 -/

/-- Claim C10: in the spec-modelled voting subsystem, the game-duration
timer opens the vote window (setting the deadline one voting-window ahead)
exactly when no vote is active and no winner is recorded, and otherwise
changes nothing; a vote is accepted exactly while the window is active
from a caller with a recorded side, overwrites that caller's previous
vote, and leaves other callers' votes alone, while a rejected vote
changes nothing; and the window-closing timer closes the window, marks the
team finished, and records blue / red / draw according to a strict
majority comparison of the vote counts. -/
theorem claim_C10_voting (vs : VoteState) (sides : List (Nat × Side))
    (sid sid2 : Nat) (choice : Side) (now window : Nat) :
    (vs.votingActive = false → vs.winner = none →
      (gameTimerFire vs now window).votingActive = true ∧
      (gameTimerFire vs now window).votingDeadline = some (now + window)) ∧
    (¬ (vs.votingActive = false ∧ vs.winner = none) →
      gameTimerFire vs now window = vs) ∧
    (vs.votingActive = true → (lookupA sides sid).isSome = true →
      lookupA (voteApply vs sides sid choice).votes sid = some choice ∧
      (sid2 ≠ sid →
        lookupA (voteApply vs sides sid choice).votes sid2 = lookupA vs.votes sid2)) ∧
    (¬ (vs.votingActive = true ∧ (lookupA sides sid).isSome = true) →
      voteApply vs sides sid choice = vs) ∧
    ((votingTimerFire vs).votingActive = false ∧
      (votingTimerFire vs).teamStatus = "finished" ∧
      ((votingTimerFire vs).winner = some VoteOutcome.blue ↔
        countVotes vs.votes Side.red < countVotes vs.votes Side.blue) ∧
      ((votingTimerFire vs).winner = some VoteOutcome.red ↔
        countVotes vs.votes Side.blue < countVotes vs.votes Side.red) ∧
      ((votingTimerFire vs).winner = some VoteOutcome.draw ↔
        countVotes vs.votes Side.blue = countVotes vs.votes Side.red)) := by
  refine ⟨?_, ?_, ?_, ?_, ?_⟩
  · intro h1 h2
    unfold gameTimerFire
    rw [if_pos ⟨h1, h2⟩]
    exact ⟨rfl, rfl⟩
  · intro hno
    unfold gameTimerFire
    rw [if_neg hno]
  · intro h1 h2
    unfold voteApply
    rw [if_pos ⟨h1, h2⟩]
    dsimp only
    exact ⟨lookupA_setA_self _ _ _, fun hne => lookupA_setA_ne _ _ _ _ hne⟩
  · intro hno
    unfold voteApply
    rw [if_neg hno]
  · unfold votingTimerFire
    dsimp only
    refine ⟨rfl, rfl, ?_, ?_, ?_⟩
    · by_cases hrb : countVotes vs.votes Side.red < countVotes vs.votes Side.blue
      · rw [if_pos hrb]
        exact iff_of_true rfl hrb
      · rw [if_neg hrb]
        refine iff_of_false ?_ hrb
        by_cases hbr : countVotes vs.votes Side.blue < countVotes vs.votes Side.red
        · rw [if_pos hbr]
          intro h
          injection h with h2
          cases h2
        · rw [if_neg hbr]
          intro h
          injection h with h2
          cases h2
    · by_cases hrb : countVotes vs.votes Side.red < countVotes vs.votes Side.blue
      · rw [if_pos hrb]
        refine iff_of_false ?_ (by omega)
        intro h
        injection h with h2
        cases h2
      · rw [if_neg hrb]
        by_cases hbr : countVotes vs.votes Side.blue < countVotes vs.votes Side.red
        · rw [if_pos hbr]
          exact iff_of_true rfl hbr
        · rw [if_neg hbr]
          refine iff_of_false ?_ hbr
          intro h
          injection h with h2
          cases h2
    · by_cases hrb : countVotes vs.votes Side.red < countVotes vs.votes Side.blue
      · rw [if_pos hrb]
        refine iff_of_false ?_ (by omega)
        intro h
        injection h with h2
        cases h2
      · rw [if_neg hrb]
        by_cases hbr : countVotes vs.votes Side.blue < countVotes vs.votes Side.red
        · rw [if_pos hbr]
          refine iff_of_false ?_ (by omega)
          intro h
          injection h with h2
          cases h2
        · rw [if_neg hbr]
          exact iff_of_true rfl (by omega)

/-- Witness for claim C10's theorem: opening the window at time 5 with a
30-second window, voter 2 casting red, and closing the window of `c10wVs`
(one blue vote) with a blue win. -/
theorem claim_C10_witness :
    ((gameTimerFire { c10wVs with votingActive := false } 5 30).votingActive = true ∧
      (gameTimerFire { c10wVs with votingActive := false } 5 30).votingDeadline =
        some 35) ∧
    lookupA (voteApply c10wVs [(2, Side.red)] 2 Side.red).votes 2 = some Side.red ∧
    (votingTimerFire c10wVs).winner = some VoteOutcome.blue := by
  refine ⟨?_, ?_, ?_⟩
  · exact (claim_C10_voting { c10wVs with votingActive := false } [] 0 0
      Side.blue 5 30).1 (by rfl) (by rfl)
  · exact ((claim_C10_voting c10wVs [(2, Side.red)] 2 0 Side.red 0 0).2.2.1
      (by rfl) (by rfl)).1
  · exact (claim_C10_voting c10wVs [] 0 0 Side.blue 0 0).2.2.2.2.2.2.1.mpr (by decide)

end XpZone
